import Mathlib

/-!
# Verification of the nanobot desktop companion core (`src/desktop/main.js`)

This file gives a shallow embedding, in Lean, of the three core components of
the repository's Electron main process — the `BackendBridge` subprocess
transport, the `ScreenCaptureService`, and the `ProactiveCompanionService`
scheduler — and proves (or refutes) the specification claims about them.

Modelling conventions:
* JavaScript numbers used as millisecond timestamps are modelled as `Int`;
  counters as `Nat`.  The `Math.random()` draw and `randomChance` (floats in
  the source) are modelled as rationals: only their ordering is ever used.
* Promises are modelled by a ghost registry mapping an identifier to a
  `PromiseStatus`; `resolve`/`reject` on an already settled promise is a
  no-op, as in JavaScript.
* Renderer notifications (`mainWindow.webContents.send(...)`) are recorded in
  an event list; where the source guards the send on a live window the model
  takes the liveness flag as an input.
* `JSON.parse` is a host builtin; the bridge model is parameterised by an
  arbitrary parse function producing the fields the source reads
  (`type`, `id`, `ok`, `payload`, `error`).
-/

/-! ## Decimal representation: `Nat.repr` is injective

The bridge allocates request identifiers with `String(++this.reqSeq)`
(modelled as `Nat.repr`); freshness of identifiers in the pending map rests
on injectivity of the decimal representation, proved here from the core
definition of `Nat.toDigitsCore`. -/

/-- Value of a decimal digit character (inverse of `Nat.digitChar` below 10). -/
def decChar (c : Char) : Nat := c.toNat - 48

/-- Decode a most-significant-first decimal digit list, starting from `i`. -/
def decVal (i : Nat) (l : List Char) : Nat :=
  l.foldl (fun a c => a * 10 + decChar c) i

theorem decVal_nil (i : Nat) : decVal i [] = i := rfl

theorem decVal_cons (i : Nat) (c : Char) (l : List Char) :
    decVal i (c :: l) = decVal (i * 10 + decChar c) l := rfl

theorem decChar_digitChar (n : Nat) (h : n < 10) :
    decChar (Nat.digitChar n) = n := by
  interval_cases n <;> decide

theorem decVal_toDigitsCore :
    ∀ (fuel n : Nat), 0 < fuel → n < 10 ^ fuel → ∀ (acc : List Char) (i : Nat),
      decVal i (Nat.toDigitsCore 10 fuel n acc)
        = decVal (i * 10 ^ (Nat.log 10 n + 1) + n) acc := by
  intro fuel
  induction fuel with
  | zero => intro n h; omega
  | succ fuel ih =>
    intro n _ hlt acc i
    simp only [Nat.toDigitsCore]
    by_cases hz : n / 10 = 0
    · have hn10 : n < 10 := by omega
      have hmod : n % 10 = n := Nat.mod_eq_of_lt hn10
      have hlog : Nat.log 10 n = 0 := Nat.log_eq_zero_iff.mpr (Or.inl hn10)
      simp [hz, hmod, hlog, decVal_cons, decChar_digitChar n hn10]
    · have hge : 10 ≤ n := by
        by_contra hc
        exact hz (Nat.div_eq_of_lt (by omega))
      have hdivlt : n / 10 < 10 ^ fuel := by
        rw [Nat.div_lt_iff_lt_mul (by norm_num : 0 < 10)]
        calc n < 10 ^ (fuel + 1) := hlt
          _ = 10 ^ fuel * 10 := by ring
      have hfpos : 0 < fuel := by
        rcases Nat.eq_zero_or_pos fuel with hf0 | hf
        · subst hf0; simp at hdivlt; omega
        · exact hf
      rw [if_neg hz, ih (n / 10) hfpos hdivlt, decVal_cons,
        decChar_digitChar (n % 10) (Nat.mod_lt n (by norm_num))]
      have hlogdiv : Nat.log 10 (n / 10) = Nat.log 10 n - 1 := Nat.log_div_base 10 n
      have hlogpos : 0 < Nat.log 10 n := Nat.log_pos (by norm_num) hge
      have hexp : Nat.log 10 (n / 10) + 1 + 1 = Nat.log 10 n + 1 := by omega
      congr 1
      calc (i * 10 ^ (Nat.log 10 (n / 10) + 1) + n / 10) * 10 + n % 10
          = i * 10 ^ (Nat.log 10 (n / 10) + 1 + 1) + (10 * (n / 10) + n % 10) := by
            ring
        _ = i * 10 ^ (Nat.log 10 n + 1) + n := by
            rw [hexp, Nat.div_add_mod n 10]

theorem decVal_toDigits (n : Nat) : decVal 0 (Nat.toDigits 10 n) = n := by
  unfold Nat.toDigits
  have hlt : n < 10 ^ (n + 1) := by
    calc n < 10 ^ n := Nat.lt_pow_self (by norm_num) n
      _ ≤ 10 ^ (n + 1) := Nat.pow_le_pow_right (by norm_num) (Nat.le_succ n)
  rw [decVal_toDigitsCore (n + 1) n (Nat.succ_pos n) hlt [] 0, decVal_nil]
  omega

theorem Nat.repr_injective : Function.Injective Nat.repr := by
  intro n m h
  have hdata : (Nat.toDigits 10 n) = (Nat.toDigits 10 m) := by
    have := congrArg String.data h
    simpa [Nat.repr, List.asString] using this
  calc n = decVal 0 (Nat.toDigits 10 n) := (decVal_toDigits n).symm
    _ = decVal 0 (Nat.toDigits 10 m) := by rw [hdata]
    _ = m := decVal_toDigits m

/-! ## JavaScript string trimming

`String.prototype.trim` removes leading and trailing whitespace; the bridge
applies it to each extracted line and the scheduler to the response text. -/

/-- Whitespace characters relevant to `trim` in this code base. -/
def jsWhite (c : Char) : Bool :=
  c = ' ' || c = '\t' || c = '\n' || c = '\r' || c = '\x0b' || c = '\x0c'

/-- `String.prototype.trim` on a character list. -/
def jsTrim (l : List Char) : List Char :=
  ((l.dropWhile jsWhite).reverse.dropWhile jsWhite).reverse

/-! ## ProactiveCompanionService (scheduler) -/

namespace Proactive

/-- The fields of a JS `Date` that the scheduler reads: `getFullYear`,
`getMonth` (0-based), `getDate`, `getHours`, `getTime` (ms). -/
structure DateT where
  year : Nat
  month : Nat
  day : Nat
  hour : Nat
  ms : Int
  deriving DecidableEq, Repr

/-- Mutable scheduler state (`ProactiveCompanionService` fields). -/
structure SchedSt where
  enabled : Bool
  minIdleMs : Int
  cooldownMs : Int
  maxPerDay : Nat
  randomChance : ℚ
  quietStartHour : Nat
  quietEndHour : Nat
  lastUserActivityAt : Int
  lastProactiveAt : Option Int
  sentToday : Nat
  dayKey : String
  inFlight : Bool
  deriving DecidableEq, Repr

/-- `_dayKey(now)`: `` `${year}-${month+1}-${date}` ``. -/
def dayKeyOf (now : DateT) : String :=
  Nat.repr now.year ++ "-" ++ Nat.repr (now.month + 1) ++ "-" ++ Nat.repr now.day

/-- `_isQuietHours(now)` as a function of the configured bounds and the hour. -/
def isQuietHours (quietStartHour quietEndHour hour : Nat) : Bool :=
  if quietStartHour < quietEndHour then
    decide (hour ≥ quietStartHour) && decide (hour < quietEndHour)
  else
    decide (hour ≥ quietStartHour) || decide (hour < quietEndHour)

/-- Constructor state of `ProactiveCompanionService` (for a given start day). -/
def initSched (startDay : DateT) : SchedSt :=
  { enabled := true
    minIdleMs := 45 * 60 * 1000
    cooldownMs := 2 * 60 * 60 * 1000
    maxPerDay := 2
    randomChance := 35 / 100
    quietStartHour := 22
    quietEndHour := 8
    lastUserActivityAt := startDay.ms
    lastProactiveAt := none
    sentToday := 0
    dayKey := dayKeyOf startDay
    inFlight := false }

/-- `_shouldSend(now)`, with the `Math.random()` draw passed in as `rand`.
Returns the mutated state (day rollover happens here) and the decision.
JS truthiness of `this.lastProactiveAt` makes a stored timestamp of `0`
behave like `null`. -/
def shouldSend (st : SchedSt) (now : DateT) (rand : ℚ) : SchedSt × Bool :=
  if !st.enabled || st.inFlight then (st, false)
  else
    let key := dayKeyOf now
    let st := if key ≠ st.dayKey then { st with dayKey := key, sentToday := 0 } else st
    if st.sentToday ≥ st.maxPerDay then (st, false)
    else if isQuietHours st.quietStartHour st.quietEndHour now.hour then (st, false)
    else
      let nowMs := now.ms
      if nowMs - st.lastUserActivityAt < st.minIdleMs then (st, false)
      else
        let cooldownHit :=
          match st.lastProactiveAt with
          | some t => t ≠ 0 && decide (nowMs - t < st.cooldownMs)
          | none => false
        if cooldownHit then (st, false)
        else (st, decide (rand < st.randomChance))

/-- The `payload` a resolved bridge request hands to `_tick`; `text?` is the
`payload.text` field, `none` when absent or falsy. -/
structure TickPayload where
  text? : Option String
  deriving DecidableEq, Repr

/-- Outcomes of the awaited calls inside one `_tick`, supplied as input:
the capture result, the bridge request outcome, and the `Date.now()` value
read when a success is recorded. -/
structure TickEnv where
  screenCaptureEnabled : Bool
  latestCapturePath : Option String
  reqResult : Except String TickPayload
  nowDuring : Int
  deriving Repr

/-- Observable effects of one tick. -/
inductive TickEvent where
  | sentRequest (media : List String)
  | statusBroadcast
  | proactiveMessage (text : String) (timestamp : Int)
  | log (s : String)
  deriving DecidableEq, Repr

/-- `_tick()`: guardrails, then the send phase.  The `try/catch/finally`
is modelled by the `Except` request outcome and the explicit clearing of
`inFlight` on every path. -/
def tick (st : SchedSt) (now : DateT) (rand : ℚ) (env : TickEnv) :
    SchedSt × List TickEvent :=
  let g := shouldSend st now rand
  if !g.2 then (g.1, [])
  else
    let st2 := { g.1 with inFlight := true }
    let media :=
      if env.screenCaptureEnabled then
        match env.latestCapturePath with
        | some p => [p]
        | none => []
      else []
    match env.reqResult with
    | .error e =>
      ({ st2 with inFlight := false },
        [.sentRequest media, .log ("Proactive nudge failed: " ++ e)])
    | .ok payload =>
      let text := String.mk (jsTrim (payload.text?.getD "").data)
      if text = "" then ({ st2 with inFlight := false }, [.sentRequest media])
      else
        ({ st2 with
            lastProactiveAt := some env.nowDuring
            sentToday := st2.sentToday + 1
            inFlight := false },
          [.sentRequest media, .statusBroadcast,
            .proactiveMessage text env.nowDuring])

end Proactive

/-! ## ScreenCaptureService -/

namespace Capture

/-- Return value of `captureNow()`: an immediate `null`, or the promise of an
in-flight capture operation (promises are numbered by `nextProm`). -/
inductive CaptureRet where
  | immedNull
  | prom (p : Nat)
  deriving DecidableEq, Repr

/-- `ScreenCaptureService` state.  `nextProm`, `providerCalls`,
`providerReqs` and `promOutcomes` are ghost observation fields recording
promise allocation, `desktopCapturer.getSources` invocations (with the
requested thumbnail size) and settled capture-promise outcomes. -/
structure CapSt where
  enabled : Bool
  intervalMs : Int
  timerOn : Bool
  latestCapturePath : Option String
  lastCaptureAt : Option Int
  lastError : Option String
  captureInFlight : Option Nat
  captureDir : Option String
  nextProm : Nat
  providerCalls : Nat
  providerReqs : List (Nat × Nat)
  promOutcomes : List (Nat × Option String)
  deriving DecidableEq, Repr

/-- Outcomes of the host calls inside one `_captureOnce`, supplied as input:
the `fs.promises.mkdir` result, the primary display metrics, the sources
returned by `desktopCapturer.getSources` (`none` = no/`null` thumbnail,
`some b` = a thumbnail whose `isEmpty()` is `b`), the `fs.promises.writeFile`
result, `Date.now()`, and whether the main window is live. -/
structure CapEnv where
  mkdirError : Option String
  scaleFactor : ℚ
  displayW : Nat
  displayH : Nat
  sources : List (Option Bool)
  writeError : Option String
  nowMs : Int
  windowLive : Bool
  deriving Repr

/-- Observable renderer notifications of the capture service. -/
inductive CapEvent where
  | statusBroadcast
  | log (s : String)
  deriving DecidableEq, Repr

/-- `path.join` for the paths appearing in this service. -/
def joinPath (a b : String) : String := a ++ "/" ++ b

/-- The thumbnail size requested from the provider:
`max(1, floor(size * (scaleFactor || 1)))` in each dimension. -/
def thumbSize (env : CapEnv) : Nat × Nat :=
  let scale : ℚ := if env.scaleFactor = 0 then 1 else env.scaleFactor
  (max 1 (Int.toNat ⌊(env.displayW : ℚ) * scale⌋),
    max 1 (Int.toNat ⌊(env.displayH : ℚ) * scale⌋))

/-- The diagnostic line sent on a capture failure. -/
def captureFailLog (e : String) : String :=
  "Screen capture failed: " ++ e ++
    ". On macOS, enable Screen Recording permission for this app."

/-- The `try` block of `_captureOnce`: every `throw` becomes `Except.error`.
The first component records whether `desktopCapturer.getSources` was reached
(it is not when `mkdir` fails).  A `none` capture directory models the
unstarted service, where `path.join(null, ...)` throws a type error. -/
def captureOnceBody (env : CapEnv) (dir? : Option String) :
    Bool × Except String String :=
  match dir? with
  | none => (false, .error "The path argument must be of type string")
  | some dir =>
    match env.mkdirError with
    | some e => (false, .error e)
    | none =>
      match env.sources with
      | [] => (true, .error "No screen source available")
      | img :: _ =>
        match img with
        | none => (true, .error "Screen capture returned an empty image")
        | some isEmpty =>
          if isEmpty then (true, .error "Screen capture returned an empty image")
          else
            match env.writeError with
            | some e => (true, .error e)
            | none => (true, .ok (joinPath dir "latest-screen.png"))

/-- `_captureOnce`: the `try` body with its `catch` handler.  Errors are
absorbed: the state records `lastError`, a status broadcast and a diagnostic
log are emitted (when the window is live), and the result is `null`. -/
def captureOnce (env : CapEnv) (st : CapSt) :
    CapSt × Option String × List CapEvent :=
  let body := captureOnceBody env st.captureDir
  let st :=
    if body.1 then
      { st with
          providerCalls := st.providerCalls + 1
          providerReqs := st.providerReqs ++ [thumbSize env] }
    else st
  match body.2 with
  | .ok outPath =>
    ({ st with
        latestCapturePath := some outPath
        lastCaptureAt := some env.nowMs
        lastError := none },
      some outPath,
      if env.windowLive then [.statusBroadcast] else [])
  | .error e =>
    ({ st with lastError := some e },
      none,
      if env.windowLive then [.statusBroadcast, .log (captureFailLog e)]
      else [])

/-- `captureNow()`: `null` when disabled; the in-flight promise when one
exists; otherwise registers a fresh promise for a new `_captureOnce` run
(whose body executes at the completion event `completeCapture`). -/
def captureNow (st : CapSt) : CapSt × CaptureRet :=
  if !st.enabled then (st, .immedNull)
  else
    match st.captureInFlight with
    | some p => (st, .prom p)
    | none =>
      let p := st.nextProm
      ({ st with captureInFlight := some p, nextProm := p + 1 }, .prom p)

/-- Completion of the in-flight `_captureOnce` with host outcomes `env`:
runs the body, records the promise outcome, and the `finally` clears the
in-flight marker. -/
def completeCapture (env : CapEnv) (st : CapSt) : CapSt × List CapEvent :=
  match st.captureInFlight with
  | none => (st, [])
  | some p =>
    let r := captureOnce env st
    ({ r.1 with
        captureInFlight := none
        promOutcomes := r.1.promOutcomes ++ [(p, r.2.1)] },
      r.2.2)

/-- `_scheduleTimer()`. -/
def scheduleTimer (st : CapSt) : CapSt :=
  if !st.enabled then st else { st with timerOn := true }

/-- `stop()`. -/
def stopCap (st : CapSt) : CapSt :=
  if st.timerOn then { st with timerOn := false } else st

/-- `start()` (`userData` is `app.getPath("userData")`). -/
def startCap (userData : String) (st : CapSt) : CapSt :=
  if st.timerOn then st
  else
    let dir := st.captureDir.getD (joinPath userData "captures")
    (captureNow (scheduleTimer { st with captureDir := some dir })).1

/-- `setEnabled(enabled)`. -/
def setEnabledCap (userData : String) (windowLive : Bool) (st : CapSt)
    (enabled : Bool) : CapSt × List CapEvent :=
  if st.enabled == enabled then (st, [])
  else
    let st := { st with enabled := enabled, lastError := none }
    let st := if !enabled then stopCap st else startCap userData st
    (st, if windowLive then [.statusBroadcast] else [])

/-- Constructor state of `ScreenCaptureService`. -/
def initCap : CapSt :=
  { enabled := true
    intervalMs := 5000
    timerOn := false
    latestCapturePath := none
    lastCaptureAt := none
    lastError := none
    captureInFlight := none
    captureDir := none
    nextProm := 0
    providerCalls := 0
    providerReqs := []
    promOutcomes := [] }

end Capture

/-! ## BackendBridge

The bridge is modelled as a deterministic step function over an explicit
state, driven by the events the Electron event loop can deliver: public
calls (`start`, `stop`, `request`), a stdout `data` chunk, a request
timeout firing, the child's `exit` or `error` event, and the 1.5-second
restart timer firing.  Promises returned by `request` are identified by
their request id in a ghost registry.  `events` records the notifications
the code sends to the renderer (when the window is live). -/

namespace Bridge

/-- The fields of a parsed stdout line that `_onStdout` reads.  `id?` is the
string value of `msg.id` (`none` when the field is absent, falsy, or not a
string — in all of which the `pending` lookup misses); `ok` is the
truthiness of `msg.ok`; `payload?`/`error?` are `none` when absent or falsy,
in which case the source substitutes a default. -/
structure Msg where
  type? : Option String
  id? : Option String
  ok : Bool
  payload? : Option String
  error? : Option String
  deriving DecidableEq, Repr

/-- The error classes with which a request promise can be rejected. -/
inductive BridgeError where
  | notAvailable
  | timedOut
  | exited
  | startFailed (m : String)
  | backend (m : String)
  deriving DecidableEq, Repr

/-- Ghost status of one request promise. -/
inductive PromiseStatus where
  | unsettled
  | resolved (payload : String)
  | rejected (e : BridgeError)
  deriving DecidableEq, Repr

/-- The live child handle: its spawn generation and `stdin.writable`. -/
structure ChildInfo where
  gen : Nat
  stdinWritable : Bool
  deriving DecidableEq, Repr

/-- Notifications sent to the renderer. -/
inductive UiEvent where
  | startingLog
  | logEv (s : String)
  | parseErrorLog
  | backendReady
  | backendExit (code : Int)
  deriving DecidableEq, Repr

/-- Bridge state.  `child`, `buf`, `pending`, `reqSeq` are the source's
fields (`pending` holds the keys of the pending map; the stored callback
pair is represented by the ghost promise registry `promises`).  `timers`
holds the armed per-request timeout timers.  `spawnCount` counts `spawn`
calls; `liveExit`/`liveErr` hold spawn generations whose `exit`/`error`
event has not yet fired; `restartTimers` counts armed 1.5-second restart
timers; `sent` records the framed requests written to stdin. -/
structure BSt where
  child : Option ChildInfo
  buf : List Char
  pending : List String
  reqSeq : Nat
  timers : List String
  promises : List (String × PromiseStatus)
  spawnCount : Nat
  liveExit : List Nat
  liveErr : List Nat
  restartTimers : Nat
  sent : List (String × String × String)
  events : List UiEvent
  deriving DecidableEq, Repr

/-- Settle a promise: a no-op on an already settled promise (JS semantics). -/
def settleProm (ps : List (String × PromiseStatus)) (i : String)
    (v : PromiseStatus) : List (String × PromiseStatus) :=
  ps.map fun e => if e.1 = i ∧ e.2 = PromiseStatus.unsettled then (e.1, v) else e

/-- The stored callback pair of a pending request: `clearTimeout(timer)`
then settle the promise. -/
def settleViaWrapper (st : BSt) (i : String) (v : PromiseStatus) : BSt :=
  { st with timers := st.timers.erase i, promises := settleProm st.promises i v }

/-- `Map.prototype.set` on the key list: overwriting an existing key keeps
its position. -/
def pendingSet (l : List String) (k : String) : List String :=
  if k ∈ l then l else l ++ [k]

/-- `start()`: returns immediately when a child handle exists; otherwise
spawns one child, wires its handlers, and logs the startup line. -/
def startFn (st : BSt) : BSt :=
  match st.child with
  | some _ => st
  | none =>
    let g := st.spawnCount + 1
    { st with
        child := some ⟨g, true⟩
        spawnCount := g
        liveExit := st.liveExit ++ [g]
        liveErr := st.liveErr ++ [g]
        events := st.events ++ [.startingLog] }

/-- `stop()`: kills the child (its `exit` event will still fire) and clears
the handle. -/
def stopFn (st : BSt) : BSt :=
  match st.child with
  | none => st
  | some _ => { st with child := none }

/-- `request(type, payload)`: lazy start; reject immediately when the child
is absent or its stdin is not writable (no pending entry is registered);
otherwise allocate `String(++reqSeq)`, write the framed request, arm the
120-second timer and register the pending entry.  Returns the new request
id when one was registered. -/
def requestFn (st : BSt) (type payload : String) : BSt × Option String :=
  let st := startFn st
  match st.child with
  | none => (st, none)
  | some c =>
    if !c.stdinWritable then (st, none)
    else
      let seq := st.reqSeq + 1
      let id := Nat.repr seq
      ({ st with
          reqSeq := seq
          sent := st.sent ++ [(id, type, payload)]
          timers := st.timers ++ [id]
          pending := pendingSet st.pending id
          promises := (id, .unsettled) :: st.promises },
        some id)

/-- The 120-second timeout firing for request `i` (enabled only while the
timer is armed): `pending.delete(id)` and reject the promise directly. -/
def timeoutFire (st : BSt) (i : String) : BSt :=
  if i ∈ st.timers then
    { st with
        timers := st.timers.erase i
        pending := st.pending.erase i
        promises := settleProm st.promises i (.rejected .timedOut) }
  else st

/-- Reject, via the stored wrappers, the promises of the given ids. -/
def rejectList (st : BSt) (ids : List String) (e : BridgeError) : BSt :=
  ids.foldl (fun s i => settleViaWrapper s i (.rejected e)) st

/-- The child `exit` handler body: reject every pending request, clear the
map and the handle, notify the renderer, arm the 1.5-second restart. -/
def exitHandler (st : BSt) (code : Int) : BSt :=
  let st := rejectList st st.pending .exited
  { st with
      pending := []
      child := none
      events := st.events ++ [.backendExit code]
      restartTimers := st.restartTimers + 1 }

/-- The child `error` handler body: log, reject every pending request,
clear the map and the handle.  No restart is armed. -/
def errorHandler (st : BSt) (m : String) : BSt :=
  let st := { st with
    events := st.events ++ [.logEv ("Backend process failed to start: " ++ m)] }
  let st := rejectList st st.pending (.startFailed m)
  { st with pending := [], child := none }

/-- Split a buffer at newlines exactly as the `indexOf`/`slice` loop does:
the complete lines in order, and the trailing residue. -/
def splitBuf : List Char → List (List Char) × List Char
  | [] => ([], [])
  | c :: rest =>
    let r := splitBuf rest
    if c = '\n' then ([] :: r.1, r.2)
    else
      match r.1 with
      | [] => ([], c :: r.2)
      | l :: ls => ((c :: l) :: ls, r.2)

/-- Process one parsed line: a `ready` message is forwarded as a status
event; a message whose (truthy) id is in the pending map settles that
request; anything else is dropped.  A parse failure (`none`) is logged. -/
def handleParsed (st : BSt) (m? : Option Msg) : BSt :=
  match m? with
  | none => { st with events := st.events ++ [.parseErrorLog] }
  | some msg =>
    if msg.type? = some "ready" then
      { st with events := st.events ++ [.backendReady] }
    else
      match msg.id? with
      | none => st
      | some i =>
        if i ≠ "" ∧ i ∈ st.pending then
          let st := { st with pending := st.pending.erase i }
          if msg.ok then
            settleViaWrapper st i (.resolved (msg.payload?.getD "\x7b\x7d"))
          else
            settleViaWrapper st i
              (.rejected (.backend (msg.error?.getD "Unknown backend error")))
        else st

/-- Process one extracted raw line: trim, skip blank lines, parse. -/
def handleLine (parse : List Char → Option Msg) (st : BSt)
    (rawLine : List Char) : BSt :=
  let line := jsTrim rawLine
  if line.isEmpty then st else handleParsed st (parse line)

/-- `_onStdout(text)`: append to the buffer, extract every complete line,
process them in order; the residue stays in the buffer. -/
def onStdout (parse : List Char → Option Msg) (st : BSt) (chunk : List Char) :
    BSt :=
  let r := splitBuf (st.buf ++ chunk)
  r.1.foldl (handleLine parse) { st with buf := r.2 }

/-- The events the event loop can deliver to the bridge. -/
inductive Ev where
  | evStart
  | evStop
  | evRequest (type payload : String)
  | evStdout (chunk : List Char)
  | evTimeout (id : String)
  | evExit (gen : Nat) (code : Int)
  | evError (gen : Nat) (msg : String)
  | evRestartFire
  deriving DecidableEq, Repr

/-- One step of the bridge.  Events whose trigger is not armed
(a cancelled timeout, an already-reported process, no armed restart)
are no-ops. -/
def step (parse : List Char → Option Msg) (st : BSt) (e : Ev) : BSt :=
  match e with
  | .evStart => startFn st
  | .evStop => stopFn st
  | .evRequest t p => (requestFn st t p).1
  | .evStdout chunk => onStdout parse st chunk
  | .evTimeout i => timeoutFire st i
  | .evExit g code =>
    if g ∈ st.liveExit then
      exitHandler { st with liveExit := st.liveExit.erase g } code
    else st
  | .evError g m =>
    if g ∈ st.liveErr then
      errorHandler { st with liveErr := st.liveErr.erase g } m
    else st
  | .evRestartFire =>
    if st.restartTimers > 0 then
      startFn { st with restartTimers := st.restartTimers - 1 }
    else st

/-- Run a trace of events. -/
def run (parse : List Char → Option Msg) (st : BSt) (tr : List Ev) : BSt :=
  tr.foldl (step parse) st

/-- Constructor state of `BackendBridge`. -/
def init : BSt :=
  { child := none, buf := [], pending := [], reqSeq := 0, timers := []
    promises := [], spawnCount := 0, liveExit := [], liveErr := []
    restartTimers := 0, sent := [], events := [] }

/-- The state after the first `k` events of a trace from `init`. -/
def stateAt (parse : List Char → Option Msg) (tr : List Ev) (k : Nat) : BSt :=
  run parse init (tr.take k)

/-- Whether the promise of request `i` is settled. -/
def isSettled (st : BSt) (i : String) : Bool :=
  match st.promises.lookup i with
  | some .unsettled => false
  | some _ => true
  | none => false

/-- The promise of request `i` flips from unsettled to settled at step `k`. -/
def settlesAt (parse : List Char → Option Msg) (tr : List Ev) (k : Nat)
    (i : String) : Prop :=
  isSettled (stateAt parse tr k) i = false ∧
    isSettled (stateAt parse tr (k + 1)) i = true

/-- The three event classes the specification names as settling a pending
request: a stdout response, a timeout, a subprocess exit. -/
def isThreeEv (e : Ev) : Bool :=
  match e with
  | .evStdout _ => true
  | .evTimeout _ => true
  | .evExit _ _ => true
  | _ => false

/-- A trace fragment containing no explicit `start()` or `request()` call. -/
def noExplicitCalls (l : List Ev) : Bool :=
  l.all fun e =>
    match e with
    | .evStart => false
    | .evRequest _ _ => false
    | _ => true

/-- A parse function used to instantiate concrete traces that never reach
the parser. -/
def parseNone : List Char → Option Msg := fun _ => none

end Bridge

/-! ### Bridge bookkeeping lemmas -/

namespace Bridge

theorem lookup_settleProm_ne (i j : String) (v : PromiseStatus) (h : i ≠ j) :
    ∀ ps : List (String × PromiseStatus),
      (settleProm ps j v).lookup i = ps.lookup i := by
  intro ps
  induction ps with
  | nil => rfl
  | cons hd tl ih =>
    obtain ⟨k, s⟩ := hd
    by_cases hik : i = k
    · subst hik
      have hcond : ¬(i = j ∧ s = PromiseStatus.unsettled) := by
        rintro ⟨h1, -⟩; exact h h1
      simp [settleProm, List.lookup_cons, hcond]
    · have hbe : (i == k) = false := beq_false_of_ne hik
      by_cases hcond : k = j ∧ s = PromiseStatus.unsettled
      · have hbj : (i == j) = false := beq_false_of_ne h
        simp [settleProm, List.lookup_cons, hcond, hbj]
        simpa [settleProm] using ih
      · simp [settleProm, List.lookup_cons, hcond, hbe]
        simpa [settleProm] using ih

theorem lookup_settleProm_settled (i j : String) (v w : PromiseStatus)
    (hv : v ≠ PromiseStatus.unsettled) :
    ∀ ps : List (String × PromiseStatus), ps.lookup i = some v →
      (settleProm ps j w).lookup i = some v := by
  intro ps
  induction ps with
  | nil => intro h; simp at h
  | cons hd tl ih =>
    obtain ⟨k, s⟩ := hd
    intro hl
    by_cases hik : i = k
    · subst hik
      simp [List.lookup_cons] at hl
      subst hl
      have hcond : ¬(i = j ∧ s = PromiseStatus.unsettled) := by
        rintro ⟨-, h2⟩
        exact hv h2
      simp [settleProm, List.lookup_cons, hcond]
    · have hbe : (i == k) = false := beq_false_of_ne hik
      simp [List.lookup_cons, hbe] at hl
      by_cases hcond : k = j ∧ s = PromiseStatus.unsettled
      · have hij : i ≠ j := fun hh => hik (hh.trans hcond.1.symm)
        have hbj : (i == j) = false := beq_false_of_ne hij
        simp [settleProm, List.lookup_cons, hcond, hbj]
        simpa [settleProm] using ih hl
      · simp [settleProm, List.lookup_cons, hcond, hbe]
        simpa [settleProm] using ih hl

theorem lookup_settleProm_self (i : String) (v : PromiseStatus) :
    ∀ ps : List (String × PromiseStatus),
      ps.lookup i = some PromiseStatus.unsettled →
      (settleProm ps i v).lookup i = some v := by
  intro ps
  induction ps with
  | nil => intro h; simp at h
  | cons hd tl ih =>
    obtain ⟨k, s⟩ := hd
    intro hl
    by_cases hik : i = k
    · subst hik
      simp [List.lookup_cons] at hl
      simp [settleProm, List.lookup_cons, hl]
    · have hbe : (i == k) = false := beq_false_of_ne hik
      simp [List.lookup_cons, hbe] at hl
      by_cases hcond : k = i ∧ s = PromiseStatus.unsettled
      · exact absurd hcond.1 (Ne.symm hik)
      · simp [settleProm, List.lookup_cons, hcond, hbe]
        simpa [settleProm] using ih hl

theorem keys_settleProm (i : String) (v : PromiseStatus) :
    ∀ ps : List (String × PromiseStatus),
      (settleProm ps i v).map Prod.fst = ps.map Prod.fst := by
  intro ps
  induction ps with
  | nil => rfl
  | cons hd tl ih =>
    obtain ⟨k, s⟩ := hd
    by_cases hcond : k = i ∧ s = PromiseStatus.unsettled <;>
      simp [settleProm, hcond] <;> simpa [settleProm] using ih

theorem mem_key_settleProm (i : String) (v : PromiseStatus)
    (ps : List (String × PromiseStatus)) (p : String × PromiseStatus)
    (hp : p ∈ settleProm ps i v) : ∃ q ∈ ps, p.1 = q.1 := by
  have h1 : p.1 ∈ (settleProm ps i v).map Prod.fst := List.mem_map_of_mem _ hp
  rw [keys_settleProm] at h1
  obtain ⟨q, hq, hqe⟩ := List.mem_map.mp h1
  exact ⟨q, hq, hqe.symm⟩

theorem lookup_some_key (i : String) (v : PromiseStatus) :
    ∀ ps : List (String × PromiseStatus), ps.lookup i = some v →
      ∃ q ∈ ps, q.1 = i := by
  intro ps
  induction ps with
  | nil => intro h; simp at h
  | cons hd tl ih =>
    obtain ⟨k, s⟩ := hd
    intro hl
    by_cases hik : i = k
    · exact ⟨(k, s), List.mem_cons_self _ _, hik.symm⟩
    · have hbe : (i == k) = false := beq_false_of_ne hik
      simp [List.lookup_cons, hbe] at hl
      obtain ⟨q, hq, hqe⟩ := ih hl
      exact ⟨q, List.mem_cons_of_mem _ hq, hqe⟩

end Bridge

namespace Bridge

theorem rejectList_eq (e : BridgeError) :
    ∀ (ids : List String) (st : BSt), rejectList st ids e =
      { st with
          timers := ids.foldl List.erase st.timers
          promises := ids.foldl (fun ps i => settleProm ps i (.rejected e))
            st.promises } := by
  intro ids
  induction ids with
  | nil => intro st; rfl
  | cons i ids ih =>
    intro st
    show rejectList (settleViaWrapper st i (.rejected e)) ids e = _
    rw [ih]
    rfl

theorem foldl_erase_nil :
    ∀ ids ts : List String, (∀ x ∈ ts, x ∈ ids) → ts.Nodup →
      ids.foldl List.erase ts = [] := by
  intro ids
  induction ids with
  | nil =>
    intro ts h _
    cases ts with
    | nil => rfl
    | cons a t => exact absurd (h a (List.mem_cons_self a t)) (List.not_mem_nil a)
  | cons i ids ih =>
    intro ts h hnd
    simp only [List.foldl_cons]
    apply ih
    · intro x hx
      have h1 := (List.Nodup.mem_erase_iff hnd).mp hx
      rcases List.mem_cons.mp (h x h1.2) with h2 | h2
      · exact absurd h2 h1.1
      · exact h2
    · exact hnd.erase i

theorem lookup_foldl_settleProm_settled (w : PromiseStatus) (i : String)
    (v : PromiseStatus) (hv : v ≠ PromiseStatus.unsettled) :
    ∀ (ids : List String) (ps : List (String × PromiseStatus)),
      ps.lookup i = some v →
      (ids.foldl (fun ps j => settleProm ps j w) ps).lookup i = some v := by
  intro ids
  induction ids with
  | nil => intro ps h; exact h
  | cons j ids ih =>
    intro ps h
    simp only [List.foldl_cons]
    exact ih _ (lookup_settleProm_settled i j v w hv ps h)

theorem mem_key_foldl_settleProm (w : PromiseStatus) :
    ∀ (ids : List String) (ps : List (String × PromiseStatus))
      (p : String × PromiseStatus),
      p ∈ ids.foldl (fun ps j => settleProm ps j w) ps → ∃ q ∈ ps, p.1 = q.1 := by
  intro ids
  induction ids with
  | nil => intro ps p hp; exact ⟨p, hp, rfl⟩
  | cons j ids ih =>
    intro ps p hp
    simp only [List.foldl_cons] at hp
    obtain ⟨q, hq, hqe⟩ := ih _ p hp
    obtain ⟨r, hr, hre⟩ := mem_key_settleProm j w ps q hq
    exact ⟨r, hr, hqe.trans hre⟩

/-- The bookkeeping invariant of every reachable bridge state: a pending
entry has an unsettled promise and an armed timer; timers belong to pending
entries; both lists are duplicate-free; every registered promise is keyed by
the decimal representation of a past value of `reqSeq`. -/
structure Inv (st : BSt) : Prop where
  pend_prom : ∀ i ∈ st.pending, st.promises.lookup i = some PromiseStatus.unsettled
  pend_tim : ∀ i ∈ st.pending, i ∈ st.timers
  tim_pend : ∀ i ∈ st.timers, i ∈ st.pending
  pend_nd : st.pending.Nodup
  tim_nd : st.timers.Nodup
  keys_bound : ∀ p ∈ st.promises, ∃ k, 1 ≤ k ∧ k ≤ st.reqSeq ∧ p.1 = Nat.repr k

theorem inv_of_fields (st st2 : BSt) (h : Inv st)
    (hp : st2.pending = st.pending) (ht : st2.timers = st.timers)
    (hpr : st2.promises = st.promises) (hs : st2.reqSeq = st.reqSeq) :
    Inv st2 := by
  constructor
  · rw [hp, hpr]; exact h.pend_prom
  · rw [hp, ht]; exact h.pend_tim
  · rw [hp, ht]; exact h.tim_pend
  · rw [hp]; exact h.pend_nd
  · rw [ht]; exact h.tim_nd
  · rw [hpr, hs]; exact h.keys_bound

theorem startFn_core (st : BSt) :
    (startFn st).pending = st.pending ∧ (startFn st).timers = st.timers ∧
    (startFn st).promises = st.promises ∧ (startFn st).reqSeq = st.reqSeq := by
  cases hc : st.child <;> simp [startFn, hc]

theorem stopFn_core (st : BSt) :
    (stopFn st).pending = st.pending ∧ (stopFn st).timers = st.timers ∧
    (stopFn st).promises = st.promises ∧ (stopFn st).reqSeq = st.reqSeq := by
  cases hc : st.child <;> simp [stopFn, hc]

theorem inv_startFn (st : BSt) (h : Inv st) : Inv (startFn st) := by
  obtain ⟨h1, h2, h3, h4⟩ := startFn_core st
  exact inv_of_fields st _ h h1 h2 h3 h4

theorem inv_stopFn (st : BSt) (h : Inv st) : Inv (stopFn st) := by
  obtain ⟨h1, h2, h3, h4⟩ := stopFn_core st
  exact inv_of_fields st _ h h1 h2 h3 h4

theorem inv_settleRemove (st : BSt) (i : String) (v : PromiseStatus)
    (h : Inv st) :
    Inv { st with
            pending := st.pending.erase i
            timers := st.timers.erase i
            promises := settleProm st.promises i v } := by
  constructor
  · intro j hj
    have h1 := (List.Nodup.mem_erase_iff h.pend_nd).mp hj
    show (settleProm st.promises i v).lookup j = _
    rw [lookup_settleProm_ne j i v h1.1]
    exact h.pend_prom j h1.2
  · intro j hj
    have h1 := (List.Nodup.mem_erase_iff h.pend_nd).mp hj
    exact (List.mem_erase_of_ne h1.1).mpr (h.pend_tim j h1.2)
  · intro j hj
    have h1 := (List.Nodup.mem_erase_iff h.tim_nd).mp hj
    exact (List.mem_erase_of_ne h1.1).mpr (h.tim_pend j h1.2)
  · exact h.pend_nd.erase i
  · exact h.tim_nd.erase i
  · intro p hp
    obtain ⟨q, hq, he⟩ := mem_key_settleProm i v st.promises p hp
    obtain ⟨k, hk1, hk2, hk3⟩ := h.keys_bound q hq
    exact ⟨k, hk1, hk2, he ▸ hk3⟩

theorem inv_timeoutFire (st : BSt) (i : String) (h : Inv st) :
    Inv (timeoutFire st i) := by
  unfold timeoutFire
  by_cases hm : i ∈ st.timers
  · rw [if_pos hm]
    exact inv_settleRemove st i _ h
  · rw [if_neg hm]
    exact h

end Bridge

namespace Bridge

/-- The registered-request state: the record `request` builds after a
successful lazy start with writable stdin (applied to `startFn st`). -/
def regState (st : BSt) (t p : String) : BSt :=
  { st with
      reqSeq := st.reqSeq + 1
      sent := st.sent ++ [(Nat.repr (st.reqSeq + 1), t, p)]
      timers := st.timers ++ [Nat.repr (st.reqSeq + 1)]
      pending := pendingSet st.pending (Nat.repr (st.reqSeq + 1))
      promises := (Nat.repr (st.reqSeq + 1), PromiseStatus.unsettled) :: st.promises }

theorem requestFn_char_none (st : BSt) (t p : String)
    (hc : (startFn st).child = none) : requestFn st t p = (startFn st, none) := by
  simp [requestFn, hc]

theorem requestFn_char_unwritable (st : BSt) (t p : String) (c : ChildInfo)
    (hc : (startFn st).child = some c) (hw : c.stdinWritable = false) :
    requestFn st t p = (startFn st, none) := by
  simp [requestFn, hc, hw]

theorem requestFn_char_reg (st : BSt) (t p : String) (c : ChildInfo)
    (hc : (startFn st).child = some c) (hw : c.stdinWritable = true) :
    requestFn st t p =
      (regState (startFn st) t p, some (Nat.repr ((startFn st).reqSeq + 1))) := by
  simp [requestFn, hc, hw, regState]

theorem fresh_not_key (st : BSt) (h : Inv st) :
    ∀ q ∈ st.promises, q.1 ≠ Nat.repr (st.reqSeq + 1) := by
  intro q hq he
  obtain ⟨k, hk1, hk2, hk3⟩ := h.keys_bound q hq
  have : k = st.reqSeq + 1 := Nat.repr_injective (hk3 ▸ he : Nat.repr k = _)
  omega

theorem fresh_not_pending (st : BSt) (h : Inv st) :
    Nat.repr (st.reqSeq + 1) ∉ st.pending := by
  intro hmem
  have hl := h.pend_prom _ hmem
  obtain ⟨q, hq, hqe⟩ := lookup_some_key _ _ st.promises hl
  exact fresh_not_key st h q hq hqe

theorem fresh_not_timers (st : BSt) (h : Inv st) :
    Nat.repr (st.reqSeq + 1) ∉ st.timers :=
  fun hmem => fresh_not_pending st h (h.tim_pend _ hmem)

theorem inv_regState (st : BSt) (t p : String) (h : Inv st) :
    Inv (regState st t p) := by
  have hfp := fresh_not_pending st h
  have hft := fresh_not_timers st h
  have hps : pendingSet st.pending (Nat.repr (st.reqSeq + 1))
      = st.pending ++ [Nat.repr (st.reqSeq + 1)] := by
    simp [pendingSet, hfp]
  constructor
  · intro j hj
    simp only [regState] at hj ⊢
    rw [hps] at hj
    rcases List.mem_append.mp hj with hj1 | hj2
    · have hne : j ≠ Nat.repr (st.reqSeq + 1) := fun he => hfp (he ▸ hj1)
      have hbe : (j == Nat.repr (st.reqSeq + 1)) = false := beq_false_of_ne hne
      simp [List.lookup_cons, hbe]
      exact h.pend_prom j hj1
    · have hje : j = Nat.repr (st.reqSeq + 1) := by simpa using hj2
      simp [List.lookup_cons, hje]
  · intro j hj
    simp only [regState] at hj ⊢
    rw [hps] at hj
    rcases List.mem_append.mp hj with hj1 | hj2
    · exact List.mem_append_left _ (h.pend_tim j hj1)
    · exact List.mem_append_right _ hj2
  · intro j hj
    simp only [regState] at hj ⊢
    rw [hps]
    rcases List.mem_append.mp hj with hj1 | hj2
    · exact List.mem_append_left _ (h.tim_pend j hj1)
    · exact List.mem_append_right _ hj2
  · simp only [regState]
    rw [hps]
    simp [List.nodup_append, h.pend_nd, hfp]
  · simp only [regState]
    simp [List.nodup_append, h.tim_nd, hft]
  · intro q hq
    simp only [regState] at hq ⊢
    rcases List.mem_cons.mp hq with hq1 | hq2
    · exact ⟨st.reqSeq + 1, by omega, le_refl _, by rw [hq1]⟩
    · obtain ⟨k, hk1, hk2, hk3⟩ := h.keys_bound q hq2
      exact ⟨k, hk1, by omega, hk3⟩

theorem inv_requestFn (st : BSt) (t p : String) (h : Inv st) :
    Inv (requestFn st t p).1 := by
  have h1 : Inv (startFn st) := inv_startFn st h
  cases hc : (startFn st).child with
  | none => rw [requestFn_char_none st t p hc]; exact h1
  | some c =>
    cases hw : c.stdinWritable with
    | false => rw [requestFn_char_unwritable st t p c hc hw]; exact h1
    | true =>
      rw [requestFn_char_reg st t p c hc hw]
      exact inv_regState (startFn st) t p h1

theorem inv_handleParsed (st : BSt) (m? : Option Msg) (h : Inv st) :
    Inv (handleParsed st m?) := by
  unfold handleParsed
  split
  · exact inv_of_fields st _ h rfl rfl rfl rfl
  · split
    · exact inv_of_fields st _ h rfl rfl rfl rfl
    · split
      · exact h
      · split
        · split
          · exact inv_settleRemove st _ _ h
          · exact inv_settleRemove st _ _ h
        · exact h

theorem inv_handleLine (parse : List Char → Option Msg) (st : BSt)
    (raw : List Char) (h : Inv st) : Inv (handleLine parse st raw) := by
  unfold handleLine
  by_cases he : (jsTrim raw).isEmpty
  · rw [if_pos he]; exact h
  · rw [if_neg he]; exact inv_handleParsed st _ h

theorem inv_foldLines (parse : List Char → Option Msg) :
    ∀ (lines : List (List Char)) (st : BSt), Inv st →
      Inv (lines.foldl (handleLine parse) st) := by
  intro lines
  induction lines with
  | nil => intro st h; exact h
  | cons l ls ih =>
    intro st h
    simp only [List.foldl_cons]
    exact ih _ (inv_handleLine parse st l h)

theorem inv_onStdout (parse : List Char → Option Msg) (st : BSt)
    (chunk : List Char) (h : Inv st) : Inv (onStdout parse st chunk) := by
  unfold onStdout
  exact inv_foldLines parse _ _ (inv_of_fields st _ h rfl rfl rfl rfl)

theorem exitHandler_eq (st : BSt) (code : Int) : exitHandler st code =
    { st with
        pending := []
        child := none
        timers := st.pending.foldl List.erase st.timers
        promises := st.pending.foldl
          (fun ps i => settleProm ps i (.rejected .exited)) st.promises
        events := st.events ++ [UiEvent.backendExit code]
        restartTimers := st.restartTimers + 1 } := by
  simp only [exitHandler, rejectList_eq]

theorem errorHandler_eq (st : BSt) (m : String) : errorHandler st m =
    { st with
        pending := []
        child := none
        timers := st.pending.foldl List.erase st.timers
        promises := st.pending.foldl
          (fun ps i => settleProm ps i (.rejected (.startFailed m))) st.promises
        events := st.events ++
          [UiEvent.logEv ("Backend process failed to start: " ++ m)] } := by
  simp only [errorHandler, rejectList_eq]

theorem inv_exitHandler (st : BSt) (code : Int) (h : Inv st) :
    Inv (exitHandler st code) := by
  rw [exitHandler_eq]
  have htim : st.pending.foldl List.erase st.timers = [] :=
    foldl_erase_nil st.pending st.timers h.tim_pend h.tim_nd
  constructor
  · intro j hj; simp at hj
  · intro j hj; simp at hj
  · intro j hj; simp [htim] at hj
  · simp
  · simp [htim]
  · intro q hq
    simp only at hq ⊢
    obtain ⟨r, hr, hre⟩ :=
      mem_key_foldl_settleProm (.rejected .exited) st.pending st.promises q hq
    obtain ⟨k, hk1, hk2, hk3⟩ := h.keys_bound r hr
    exact ⟨k, hk1, hk2, hre ▸ hk3⟩

theorem inv_errorHandler (st : BSt) (m : String) (h : Inv st) :
    Inv (errorHandler st m) := by
  rw [errorHandler_eq]
  have htim : st.pending.foldl List.erase st.timers = [] :=
    foldl_erase_nil st.pending st.timers h.tim_pend h.tim_nd
  constructor
  · intro j hj; simp at hj
  · intro j hj; simp at hj
  · intro j hj; simp [htim] at hj
  · simp
  · simp [htim]
  · intro q hq
    simp only at hq ⊢
    obtain ⟨r, hr, hre⟩ :=
      mem_key_foldl_settleProm (.rejected (.startFailed m)) st.pending
        st.promises q hq
    obtain ⟨k, hk1, hk2, hk3⟩ := h.keys_bound r hr
    exact ⟨k, hk1, hk2, hre ▸ hk3⟩

theorem inv_step (parse : List Char → Option Msg) (st : BSt) (e : Ev)
    (h : Inv st) : Inv (step parse st e) := by
  cases e with
  | evStart => exact inv_startFn st h
  | evStop => exact inv_stopFn st h
  | evRequest t p => exact inv_requestFn st t p h
  | evStdout chunk => exact inv_onStdout parse st chunk h
  | evTimeout i => exact inv_timeoutFire st i h
  | evExit g code =>
    show Inv (if g ∈ st.liveExit then _ else st)
    by_cases hg : g ∈ st.liveExit
    · rw [if_pos hg]
      exact inv_exitHandler _ code (inv_of_fields st _ h rfl rfl rfl rfl)
    · rw [if_neg hg]; exact h
  | evError g m =>
    show Inv (if g ∈ st.liveErr then _ else st)
    by_cases hg : g ∈ st.liveErr
    · rw [if_pos hg]
      exact inv_errorHandler _ m (inv_of_fields st _ h rfl rfl rfl rfl)
    · rw [if_neg hg]; exact h
  | evRestartFire =>
    show Inv (if st.restartTimers > 0 then _ else st)
    by_cases hg : st.restartTimers > 0
    · rw [if_pos hg]
      exact inv_startFn _ (inv_of_fields st _ h rfl rfl rfl rfl)
    · rw [if_neg hg]; exact h

theorem inv_init : Inv init := by
  refine ⟨?_, ?_, ?_, ?_, ?_, ?_⟩ <;> simp [init]

theorem inv_run (parse : List Char → Option Msg) :
    ∀ (tr : List Ev) (st : BSt), Inv st → Inv (run parse st tr) := by
  intro tr
  induction tr with
  | nil => intro st h; exact h
  | cons e tr ih =>
    intro st h
    simp only [run, List.foldl_cons]
    exact ih _ (inv_step parse st e h)

theorem inv_stateAt (parse : List Char → Option Msg) (tr : List Ev) (k : Nat) :
    Inv (stateAt parse tr k) :=
  inv_run parse _ _ inv_init

end Bridge
namespace Bridge

/-- The promise value with which a matched response settles its request. -/
def respVal (msg : Msg) : PromiseStatus :=
  if msg.ok then PromiseStatus.resolved (msg.payload?.getD "\x7b\x7d")
  else PromiseStatus.rejected (.backend (msg.error?.getD "Unknown backend error"))

theorem handleParsed_none (st : BSt) :
    handleParsed st none = { st with events := st.events ++ [.parseErrorLog] } :=
  rfl

theorem handleParsed_some (st : BSt) (msg : Msg) :
    handleParsed st (some msg) =
      if msg.type? = some "ready" then
        { st with events := st.events ++ [.backendReady] }
      else
        match msg.id? with
        | none => st
        | some i =>
          if i ≠ "" ∧ i ∈ st.pending then
            if msg.ok then
              settleViaWrapper { st with pending := st.pending.erase i } i
                (.resolved (msg.payload?.getD "\x7b\x7d"))
            else
              settleViaWrapper { st with pending := st.pending.erase i } i
                (.rejected (.backend (msg.error?.getD "Unknown backend error")))
          else st := rfl

theorem handleParsed_ready (st : BSt) (msg : Msg)
    (hr : msg.type? = some "ready") :
    handleParsed st (some msg) =
      { st with events := st.events ++ [.backendReady] } := by
  rw [handleParsed_some, if_pos hr]

theorem handleParsed_id (st : BSt) (msg : Msg) (i : String)
    (hr : msg.type? ≠ some "ready") (hid : msg.id? = some i) :
    handleParsed st (some msg) =
      if i ≠ "" ∧ i ∈ st.pending then
        if msg.ok then
          settleViaWrapper { st with pending := st.pending.erase i } i
            (.resolved (msg.payload?.getD "\x7b\x7d"))
        else
          settleViaWrapper { st with pending := st.pending.erase i } i
            (.rejected (.backend (msg.error?.getD "Unknown backend error")))
      else st := by
  rw [handleParsed_some, if_neg hr, hid]

theorem handleParsed_noid (st : BSt) (msg : Msg)
    (hr : msg.type? ≠ some "ready") (hid : msg.id? = none) :
    handleParsed st (some msg) = st := by
  rw [handleParsed_some, if_neg hr, hid]

theorem handleParsed_drop (st : BSt) (msg : Msg)
    (hr : msg.type? ≠ some "ready")
    (h2 : ∀ i, msg.id? = some i → ¬(i ≠ "" ∧ i ∈ st.pending)) :
    handleParsed st (some msg) = st := by
  cases hid : msg.id? with
  | none => exact handleParsed_noid st msg hr hid
  | some i => rw [handleParsed_id st msg i hr hid, if_neg (h2 i hid)]

theorem handleParsed_settle (st : BSt) (msg : Msg) (i : String)
    (hr : msg.type? ≠ some "ready") (hid : msg.id? = some i)
    (hg : i ≠ "" ∧ i ∈ st.pending) :
    handleParsed st (some msg) =
      { st with
          pending := st.pending.erase i
          timers := st.timers.erase i
          promises := settleProm st.promises i (respVal msg) } := by
  rw [handleParsed_id st msg i hr hid, if_pos hg]
  cases hok : msg.ok <;> simp [respVal, hok, settleViaWrapper]

theorem handleLine_skip (parse : List Char → Option Msg) (st : BSt)
    (raw : List Char) (h : (jsTrim raw).isEmpty = true) :
    handleLine parse st raw = st := by
  simp [handleLine, h]

theorem handleLine_parse (parse : List Char → Option Msg) (st : BSt)
    (raw : List Char) (h : (jsTrim raw).isEmpty = false) :
    handleLine parse st raw = handleParsed st (parse (jsTrim raw)) := by
  simp [handleLine, h]

theorem startFn_id_of_child (st : BSt) (c : ChildInfo)
    (hc : st.child = some c) : startFn st = st := by
  unfold startFn; rw [hc]

theorem startFn_spawn (st : BSt) (hc : st.child = none) :
    startFn st =
      { st with
          child := some ⟨st.spawnCount + 1, true⟩
          spawnCount := st.spawnCount + 1
          liveExit := st.liveExit ++ [st.spawnCount + 1]
          liveErr := st.liveErr ++ [st.spawnCount + 1]
          events := st.events ++ [.startingLog] } := by
  unfold startFn; rw [hc]

theorem stopFn_id (st : BSt) (hc : st.child = none) : stopFn st = st := by
  unfold stopFn; rw [hc]

theorem stopFn_kill (st : BSt) (c : ChildInfo) (hc : st.child = some c) :
    stopFn st = { st with child := none } := by
  unfold stopFn; rw [hc]

theorem splitBuf_append_newline (l : List Char) (h : '\n' ∉ l) :
    splitBuf (l ++ ['\n']) = ([l], []) := by
  induction l with
  | nil => rfl
  | cons c cs ih =>
    have hc : ¬(c = '\n') := fun he => h (he ▸ List.mem_cons_self c cs)
    have hcs : '\n' ∉ cs := fun hm => h (List.mem_cons_of_mem c hm)
    simp [splitBuf, ih hcs, hc]

theorem isSettled_congr (st2 st : BSt) (hpr : st2.promises = st.promises)
    (j : String) : isSettled st2 j = isSettled st j := by
  unfold isSettled; rw [hpr]

theorem isSettled_eq_true_iff (st : BSt) (j : String) :
    isSettled st j = true ↔
      ∃ v, st.promises.lookup j = some v ∧ v ≠ PromiseStatus.unsettled := by
  unfold isSettled
  cases hl : st.promises.lookup j with
  | none => simp
  | some v => cases v <;> simp

end Bridge

namespace Bridge

theorem settled_handleParsed (st : BSt) (m? : Option Msg) (i : String)
    (v : PromiseStatus) (hv : v ≠ PromiseStatus.unsettled)
    (hl : st.promises.lookup i = some v) :
    (handleParsed st m?).promises.lookup i = some v := by
  cases m? with
  | none => rw [handleParsed_none]; exact hl
  | some msg =>
    by_cases hr : msg.type? = some "ready"
    · rw [handleParsed_ready st msg hr]; exact hl
    · cases hid : msg.id? with
      | none => rw [handleParsed_noid st msg hr hid]; exact hl
      | some j =>
        by_cases hg : j ≠ "" ∧ j ∈ st.pending
        · rw [handleParsed_settle st msg j hr hid hg]
          exact lookup_settleProm_settled i j v _ hv st.promises hl
        · rw [handleParsed_id st msg j hr hid, if_neg hg]; exact hl

theorem settled_handleLine (parse : List Char → Option Msg) (st : BSt)
    (raw : List Char) (i : String) (v : PromiseStatus)
    (hv : v ≠ PromiseStatus.unsettled)
    (hl : st.promises.lookup i = some v) :
    (handleLine parse st raw).promises.lookup i = some v := by
  cases he : (jsTrim raw).isEmpty with
  | true => rw [handleLine_skip parse st raw he]; exact hl
  | false =>
    rw [handleLine_parse parse st raw he]
    exact settled_handleParsed st _ i v hv hl

theorem settled_foldLines (parse : List Char → Option Msg) (i : String)
    (v : PromiseStatus) (hv : v ≠ PromiseStatus.unsettled) :
    ∀ (lines : List (List Char)) (st : BSt),
      st.promises.lookup i = some v →
      ((lines.foldl (handleLine parse) st).promises.lookup i = some v) := by
  intro lines
  induction lines with
  | nil => intro st hl; exact hl
  | cons l ls ih =>
    intro st hl
    simp only [List.foldl_cons]
    exact ih _ (settled_handleLine parse st l i v hv hl)

theorem settled_step (parse : List Char → Option Msg) (st : BSt) (e : Ev)
    (i : String) (v : PromiseStatus) (hInv : Inv st)
    (hv : v ≠ PromiseStatus.unsettled)
    (hl : st.promises.lookup i = some v) :
    (step parse st e).promises.lookup i = some v := by
  cases e with
  | evStart =>
    show (startFn st).promises.lookup i = some v
    rw [(startFn_core st).2.2.1]; exact hl
  | evStop =>
    show (stopFn st).promises.lookup i = some v
    rw [(stopFn_core st).2.2.1]; exact hl
  | evRequest t p =>
    show (requestFn st t p).1.promises.lookup i = some v
    have hl1 : (startFn st).promises.lookup i = some v := by
      rw [(startFn_core st).2.2.1]; exact hl
    have h1 : Inv (startFn st) := inv_startFn st hInv
    cases hc : (startFn st).child with
    | none => rw [requestFn_char_none st t p hc]; exact hl1
    | some c =>
      cases hw : c.stdinWritable with
      | false => rw [requestFn_char_unwritable st t p c hc hw]; exact hl1
      | true =>
        rw [requestFn_char_reg st t p c hc hw]
        show (((Nat.repr ((startFn st).reqSeq + 1)), PromiseStatus.unsettled)
          :: (startFn st).promises).lookup i = some v
        obtain ⟨q, hq, hqe⟩ := lookup_some_key i v _ hl1
        have hne : i ≠ Nat.repr ((startFn st).reqSeq + 1) := by
          intro he
          exact fresh_not_key _ h1 q hq (hqe.trans he)
        have hbe : (i == Nat.repr ((startFn st).reqSeq + 1)) = false :=
          beq_false_of_ne hne
        simp [List.lookup_cons, hbe]
        exact hl1
  | evStdout chunk =>
    show (onStdout parse st chunk).promises.lookup i = some v
    unfold onStdout
    exact settled_foldLines parse i v hv _ _ hl
  | evTimeout j =>
    show (timeoutFire st j).promises.lookup i = some v
    unfold timeoutFire
    by_cases hm : j ∈ st.timers
    · rw [if_pos hm]
      exact lookup_settleProm_settled i j v _ hv st.promises hl
    · rw [if_neg hm]; exact hl
  | evExit g code =>
    show (if g ∈ st.liveExit then _ else st).promises.lookup i = some v
    by_cases hg : g ∈ st.liveExit
    · rw [if_pos hg, exitHandler_eq]
      exact lookup_foldl_settleProm_settled _ i v hv st.pending st.promises hl
    · rw [if_neg hg]; exact hl
  | evError g m =>
    show (if g ∈ st.liveErr then _ else st).promises.lookup i = some v
    by_cases hg : g ∈ st.liveErr
    · rw [if_pos hg, errorHandler_eq]
      exact lookup_foldl_settleProm_settled _ i v hv st.pending st.promises hl
    · rw [if_neg hg]; exact hl
  | evRestartFire =>
    show (if st.restartTimers > 0 then _ else st).promises.lookup i = some v
    by_cases hg : st.restartTimers > 0
    · rw [if_pos hg]
      show (startFn { st with restartTimers := st.restartTimers - 1 }).promises.lookup i
        = some v
      rw [(startFn_core _).2.2.1]
      exact hl
    · rw [if_neg hg]; exact hl

theorem settled_run (parse : List Char → Option Msg) (i : String)
    (v : PromiseStatus) (hv : v ≠ PromiseStatus.unsettled) :
    ∀ (tr : List Ev) (st : BSt), Inv st →
      st.promises.lookup i = some v →
      (run parse st tr).promises.lookup i = some v := by
  intro tr
  induction tr with
  | nil => intro st _ hl; exact hl
  | cons e tr ih =>
    intro st hInv hl
    simp only [run, List.foldl_cons]
    exact ih _ (inv_step parse st e hInv) (settled_step parse st e i v hInv hv hl)

end Bridge

namespace Bridge

theorem isSettled_eq_of_lookup_eq (st2 st : BSt) (j : String)
    (h : st2.promises.lookup j = st.promises.lookup j) :
    isSettled st2 j = isSettled st j := by
  unfold isSettled; rw [h]

theorem flip_handleParsed (st : BSt) (m? : Option Msg) (j : String)
    (hf : isSettled st j = false)
    (ht : isSettled (handleParsed st m?) j = true) :
    ∃ msg, m? = some msg ∧ msg.id? = some j := by
  cases m? with
  | none =>
    have ht2 : isSettled st j = true := ht
    rw [hf] at ht2; simp at ht2
  | some msg =>
    by_cases hr : msg.type? = some "ready"
    · exfalso
      rw [handleParsed_ready st msg hr] at ht
      have ht2 : isSettled st j = true := ht
      rw [hf] at ht2; simp at ht2
    · cases hid : msg.id? with
      | none =>
        exfalso
        rw [handleParsed_noid st msg hr hid, hf] at ht
        simp at ht
      | some i =>
        by_cases hg : i ≠ "" ∧ i ∈ st.pending
        · by_cases hij : j = i
          · exact ⟨msg, rfl, hij ▸ hid⟩
          · exfalso
            rw [handleParsed_settle st msg i hr hid hg] at ht
            have hcg : isSettled { st with
                pending := st.pending.erase i
                timers := st.timers.erase i
                promises := settleProm st.promises i (respVal msg) } j
                = isSettled st j :=
              isSettled_eq_of_lookup_eq _ st j
                (lookup_settleProm_ne j i (respVal msg) hij st.promises)
            rw [hcg, hf] at ht; simp at ht
        · exfalso
          rw [handleParsed_id st msg i hr hid, if_neg hg, hf] at ht
          simp at ht

theorem flip_handleLine (parse : List Char → Option Msg) (st : BSt)
    (raw : List Char) (j : String) (hf : isSettled st j = false)
    (ht : isSettled (handleLine parse st raw) j = true) :
    ∃ m, parse (jsTrim raw) = some m ∧ m.id? = some j := by
  cases he : (jsTrim raw).isEmpty with
  | true =>
    exfalso
    rw [handleLine_skip parse st raw he, hf] at ht
    simp at ht
  | false =>
    rw [handleLine_parse parse st raw he] at ht
    obtain ⟨msg, hm, hmid⟩ := flip_handleParsed st _ j hf ht
    exact ⟨msg, hm, hmid⟩

theorem flip_foldLines (parse : List Char → Option Msg) (j : String) :
    ∀ (lines : List (List Char)) (st : BSt),
      isSettled st j = false →
      isSettled (lines.foldl (handleLine parse) st) j = true →
      ∃ raw ∈ lines, ∃ m, parse (jsTrim raw) = some m ∧ m.id? = some j := by
  intro lines
  induction lines with
  | nil =>
    intro st hf ht
    simp only [List.foldl_nil] at ht
    rw [hf] at ht
    simp at ht
  | cons l ls ih =>
    intro st hf ht
    simp only [List.foldl_cons] at ht
    cases h1 : isSettled (handleLine parse st l) j with
    | true =>
      obtain ⟨m, hm, hmid⟩ := flip_handleLine parse st l j hf h1
      exact ⟨l, List.mem_cons_self l ls, m, hm, hmid⟩
    | false =>
      obtain ⟨raw, hraw, m, hm, hmid⟩ := ih _ h1 ht
      exact ⟨raw, List.mem_cons_of_mem l hraw, m, hm, hmid⟩

theorem flip_timeoutFire (st : BSt) (i j : String)
    (hf : isSettled st j = false)
    (ht : isSettled (timeoutFire st i) j = true) : i = j := by
  by_cases hij : i = j
  · exact hij
  · exfalso
    unfold timeoutFire at ht
    by_cases hm : i ∈ st.timers
    · rw [if_pos hm] at ht
      have hcg : isSettled { st with
          timers := st.timers.erase i
          pending := st.pending.erase i
          promises := settleProm st.promises i (.rejected .timedOut) } j
          = isSettled st j :=
        isSettled_eq_of_lookup_eq _ st j
          (lookup_settleProm_ne j i _ (fun he => hij he.symm) st.promises)
      rw [hcg, hf] at ht; simp at ht
    · rw [if_neg hm, hf] at ht
      simp at ht

theorem isSettled_requestFn (st : BSt) (t p : String) (j : String)
    (hf : isSettled st j = false) :
    isSettled (requestFn st t p).1 j = false := by
  have hf1 : isSettled (startFn st) j = false := by
    rw [isSettled_eq_of_lookup_eq (startFn st) st j
      (by rw [(startFn_core st).2.2.1])]
    exact hf
  cases hc : (startFn st).child with
  | none => rw [requestFn_char_none st t p hc]; exact hf1
  | some c =>
    cases hw : c.stdinWritable with
    | false => rw [requestFn_char_unwritable st t p c hc hw]; exact hf1
    | true =>
      rw [requestFn_char_reg st t p c hc hw]
      by_cases hj : j = Nat.repr ((startFn st).reqSeq + 1)
      · show isSettled (regState (startFn st) t p) j = false
        unfold isSettled
        simp only [regState]
        have hbe : (j == Nat.repr ((startFn st).reqSeq + 1)) = true := by
          simpa using hj
        simp [List.lookup_cons, hbe]
      · show isSettled (regState (startFn st) t p) j = false
        unfold isSettled
        simp only [regState]
        have hbe : (j == Nat.repr ((startFn st).reqSeq + 1)) = false :=
          beq_false_of_ne hj
        simp only [List.lookup_cons, hbe]
        unfold isSettled at hf1
        exact hf1

/-- The shape the settling event must have, as a function of the event:
a stdout chunk one of whose extracted lines parses to a message bearing the
request's id, the request's own timeout, a subprocess `exit` event, or a
subprocess spawn-`error` event. -/
def settlerShape (parse : List Char → Option Msg) (st : BSt) (e : Ev)
    (j : String) : Prop :=
  match e with
  | .evTimeout i => i = j
  | .evStdout chunk => ∃ raw ∈ (splitBuf (st.buf ++ chunk)).1,
      ∃ m, parse (jsTrim raw) = some m ∧ m.id? = some j
  | .evExit _ _ => True
  | .evError _ _ => True
  | _ => False

theorem flip_step (parse : List Char → Option Msg) (st : BSt) (e : Ev)
    (j : String) (hf : isSettled st j = false)
    (ht : isSettled (step parse st e) j = true) :
    settlerShape parse st e j := by
  cases e with
  | evStart =>
    show False
    have ht2 : isSettled (startFn st) j = true := ht
    rw [isSettled_eq_of_lookup_eq (startFn st) st j
      (by rw [(startFn_core st).2.2.1]), hf] at ht2
    simp at ht2
  | evStop =>
    show False
    have ht2 : isSettled (stopFn st) j = true := ht
    rw [isSettled_eq_of_lookup_eq (stopFn st) st j
      (by rw [(stopFn_core st).2.2.1]), hf] at ht2
    simp at ht2
  | evRequest t p =>
    show False
    have ht2 : isSettled (requestFn st t p).1 j = true := ht
    rw [isSettled_requestFn st t p j hf] at ht2
    simp at ht2
  | evStdout chunk =>
    show ∃ raw ∈ (splitBuf (st.buf ++ chunk)).1,
      ∃ m, parse (jsTrim raw) = some m ∧ m.id? = some j
    have hf2 : isSettled { st with buf := (splitBuf (st.buf ++ chunk)).2 } j
        = false := hf
    have ht2 : isSettled (((splitBuf (st.buf ++ chunk)).1).foldl
        (handleLine parse)
        { st with buf := (splitBuf (st.buf ++ chunk)).2 }) j = true := ht
    exact flip_foldLines parse j _ _ hf2 ht2
  | evTimeout i =>
    show i = j
    exact flip_timeoutFire st i j hf ht
  | evExit g code => trivial
  | evError g m => trivial
  | evRestartFire =>
    show False
    by_cases hg : st.restartTimers > 0
    · have ht2 : isSettled
          (startFn { st with restartTimers := st.restartTimers - 1 }) j
          = true := by
        have hstep : step parse st .evRestartFire
            = startFn { st with restartTimers := st.restartTimers - 1 } := by
          show (if st.restartTimers > 0 then _ else st) = _
          rw [if_pos hg]
        rw [hstep] at ht
        exact ht
      rw [isSettled_eq_of_lookup_eq _ st j
        (by rw [(startFn_core _).2.2.1]), hf] at ht2
      simp at ht2
    · have hstep : step parse st .evRestartFire = st := by
        show (if st.restartTimers > 0 then _ else st) = st
        rw [if_neg hg]
      rw [hstep, hf] at ht
      simp at ht

end Bridge

namespace Bridge

theorem run_append (parse : List Char → Option Msg) (st : BSt)
    (l1 l2 : List Ev) : run parse st (l1 ++ l2) = run parse (run parse st l1) l2 := by
  unfold run
  exact List.foldl_append _ _ l1 l2

theorem stateAt_le (parse : List Char → Option Msg) (tr : List Ev)
    (k k2 : Nat) (h : k ≤ k2) :
    stateAt parse tr k2 = run parse (stateAt parse tr k) ((tr.take k2).drop k) := by
  unfold stateAt
  rw [← run_append]
  congr 1
  conv_lhs => rw [← List.take_append_drop k (tr.take k2)]
  congr 1
  rw [List.take_take, Nat.min_eq_left h]

theorem stateAt_succ (parse : List Char → Option Msg) (tr : List Ev) (k : Nat) :
    stateAt parse tr (k + 1) = run parse (stateAt parse tr k) (tr[k]?.toList) := by
  unfold stateAt
  rw [← run_append]
  congr 1
  exact List.take_succ

/-- `request` while a child is live neither replaces the handle nor spawns. -/
theorem requestFn_child_some (st : BSt) (t p : String) (c : ChildInfo)
    (hc : st.child = some c) :
    (requestFn st t p).1.child = some c ∧
    (requestFn st t p).1.spawnCount = st.spawnCount := by
  have hs : startFn st = st := startFn_id_of_child st c hc
  have hc1 : (startFn st).child = some c := by rw [hs]; exact hc
  cases hw : c.stdinWritable with
  | false =>
    rw [requestFn_char_unwritable st t p c hc1 hw, hs]
    exact ⟨hc, rfl⟩
  | true =>
    rw [requestFn_char_reg st t p c hc1 hw]
    show ((regState (startFn st) t p).child = some c ∧ _)
    simp only [regState, hs]
    exact ⟨hc, trivial⟩

/-- Events that are explicit `start()` or `request()` calls. -/
def isCallEv : Ev → Bool
  | .evStart => true
  | .evRequest _ _ => true
  | _ => false

theorem run_calls_frozen (parse : List Char → Option Msg) :
    ∀ (calls : List Ev) (st : BSt) (c : ChildInfo),
      calls.all isCallEv = true → st.child = some c →
      (run parse st calls).child = some c ∧
      (run parse st calls).spawnCount = st.spawnCount := by
  intro calls
  induction calls with
  | nil => intro st c _ hc; exact ⟨hc, rfl⟩
  | cons e cs ih =>
    intro st c hall hc
    rw [List.all_cons, Bool.and_eq_true] at hall
    simp only [run, List.foldl_cons]
    cases e with
    | evStart =>
      show (run parse (startFn st) cs).child = some c ∧
        (run parse (startFn st) cs).spawnCount = st.spawnCount
      rw [startFn_id_of_child st c hc]
      exact ih st c hall.2 hc
    | evRequest t p =>
      show (run parse (requestFn st t p).1 cs).child = some c ∧
        (run parse (requestFn st t p).1 cs).spawnCount = st.spawnCount
      obtain ⟨h1, h2⟩ := requestFn_child_some st t p c hc
      obtain ⟨h3, h4⟩ := ih _ c hall.2 h1
      exact ⟨h3, h4.trans h2⟩
    | evStop => simp [isCallEv] at hall
    | evStdout chunk => simp [isCallEv] at hall
    | evTimeout i => simp [isCallEv] at hall
    | evExit g code => simp [isCallEv] at hall
    | evError g m => simp [isCallEv] at hall
    | evRestartFire => simp [isCallEv] at hall

end Bridge

/-! ## Claim theorems -/

/-- Quiet-hours membership as the specification words it: `hour ≥ start OR
hour < end` when `start ≥ end`, else `start ≤ hour < end`. -/
def quietSpec (s e h : Nat) : Bool :=
  if e ≤ s then (decide (h ≥ s) || decide (h < e))
  else (decide (s ≤ h) && decide (h < e))

/-- C6: quiet-hours membership with wraparound.  For every hour `h` and
bounds `start`, `end`, `_isQuietHours` agrees with the spec formula
(`h ≥ start ∨ h < end` when `start ≥ end`, else `start ≤ h < end`); with
start=22 and end=8, hours 23, 0, 7 are quiet and hours 8, 12, 21 are not. -/
theorem C6_quiet_hours_wraparound :
    (∀ s e h : Nat, Proactive.isQuietHours s e h = quietSpec s e h) ∧
    ([23, 0, 7].all (fun h => Proactive.isQuietHours 22 8 h) = true) ∧
    ([8, 12, 21].all (fun h => !Proactive.isQuietHours 22 8 h) = true) := by
  refine ⟨?_, by decide, by decide⟩
  intro s e h
  unfold Proactive.isQuietHours quietSpec
  by_cases hse : s < e
  · rw [if_pos hse, if_neg (by omega)]
  · rw [if_neg hse, if_pos (by omega)]

/-- C8: daily-counter rollover.  When the guardrail evaluator runs (enabled,
not in flight) on a wall-clock day different from the stored day key, the
day key is updated and the counter reset to 0 in the same evaluation, before
the daily-cap check; consequently — with no assumption at all on the stored
`sentToday`, which may be at yesterday's cap — the evaluation is not denied:
it returns `true` whenever the remaining guardrails pass. -/
theorem C8_daily_rollover (st : Proactive.SchedSt) (now : Proactive.DateT)
    (rand : ℚ) (hen : st.enabled = true) (hif : st.inFlight = false)
    (hday : Proactive.dayKeyOf now ≠ st.dayKey) :
    (Proactive.shouldSend st now rand).1.dayKey = Proactive.dayKeyOf now ∧
    (Proactive.shouldSend st now rand).1.sentToday = 0 ∧
    (1 ≤ st.maxPerDay →
      Proactive.isQuietHours st.quietStartHour st.quietEndHour now.hour = false →
      st.minIdleMs ≤ now.ms - st.lastUserActivityAt →
      (∀ t, st.lastProactiveAt = some t → t = 0 ∨ st.cooldownMs ≤ now.ms - t) →
      rand < st.randomChance →
      (Proactive.shouldSend st now rand).2 = true) := by
  have hguard : ¬((!st.enabled || st.inFlight) = true) := by simp [hen, hif]
  refine ⟨?_, ?_, ?_⟩
  · unfold Proactive.shouldSend
    rw [if_neg hguard]
    dsimp only
    rw [if_pos hday]
    dsimp only
    repeat' split
    all_goals rfl
  · unfold Proactive.shouldSend
    rw [if_neg hguard]
    dsimp only
    rw [if_pos hday]
    dsimp only
    repeat' split
    all_goals rfl
  · intro hcap hq hidle hcd hr
    unfold Proactive.shouldSend
    rw [if_neg hguard]
    dsimp only
    rw [if_pos hday]
    dsimp only
    rw [if_neg (by omega)]
    rw [if_neg (by simp [hq])]
    rw [if_neg (by omega)]
    cases hlp : st.lastProactiveAt with
    | none =>
      rw [if_neg (by simp)]
      simp [hr]
    | some t =>
      rcases hcd t hlp with h0 | hcdle
      · rw [if_neg (by simp [h0])]
        simp [hr]
      · rw [if_neg (by simp; omega)]
        simp [hr]

/-- A concrete scheduler state at yesterday's cap, for the C8 witness. -/
def sampleStC8 : Proactive.SchedSt :=
  { enabled := true
    minIdleMs := 45 * 60 * 1000
    cooldownMs := 2 * 60 * 60 * 1000
    maxPerDay := 2
    randomChance := 35 / 100
    quietStartHour := 22
    quietEndHour := 8
    lastUserActivityAt := 0
    lastProactiveAt := none
    sentToday := 2
    dayKey := "2026-10-10"
    inFlight := false }

/-- A concrete "today" for the C8 witness (2026-10-11, noon). -/
def sampleNowC8 : Proactive.DateT :=
  { year := 2026, month := 9, day := 11, hour := 12, ms := 10000000 }

/-- Witness for C8 at a state whose counter sits at yesterday's cap. -/
theorem C8_daily_rollover_witness :
    (Proactive.shouldSend sampleStC8 sampleNowC8 0).1.dayKey
      = Proactive.dayKeyOf sampleNowC8 ∧
    (Proactive.shouldSend sampleStC8 sampleNowC8 0).1.sentToday = 0 ∧
    (Proactive.shouldSend sampleStC8 sampleNowC8 0).2 = true := by
  obtain ⟨h1, h2, h3⟩ := C8_daily_rollover sampleStC8 sampleNowC8 0 rfl rfl
    (by decide)
  exact ⟨h1, h2, h3 (by decide) (by decide) (by decide)
    (fun t ht => Option.noConfusion ht) (by norm_num [sampleStC8])⟩

/-- C4: proactive tick counter discipline.  For every tick that reaches the
send phase (the guardrail evaluation returned `true`): a successful bridge
request with a non-empty trimmed text increments `sentToday` by exactly 1
and sets `lastProactiveAt` to the `Date.now()` read at that point; a failed
request, or an empty text, leaves both exactly as the guardrail evaluation
left them; and on every path the in-flight marker is cleared by the time the
tick completes. -/
theorem C4_tick_counters (st : Proactive.SchedSt) (now : Proactive.DateT)
    (rand : ℚ) (env : Proactive.TickEnv)
    (hgo : (Proactive.shouldSend st now rand).2 = true) :
    (Proactive.tick st now rand env).1.inFlight = false ∧
    (∀ e, env.reqResult = .error e →
      (Proactive.tick st now rand env).1.sentToday
        = (Proactive.shouldSend st now rand).1.sentToday ∧
      (Proactive.tick st now rand env).1.lastProactiveAt
        = (Proactive.shouldSend st now rand).1.lastProactiveAt) ∧
    (∀ payload, env.reqResult = .ok payload →
      (String.mk (jsTrim (payload.text?.getD "").data) = "" →
        (Proactive.tick st now rand env).1.sentToday
          = (Proactive.shouldSend st now rand).1.sentToday ∧
        (Proactive.tick st now rand env).1.lastProactiveAt
          = (Proactive.shouldSend st now rand).1.lastProactiveAt) ∧
      (String.mk (jsTrim (payload.text?.getD "").data) ≠ "" →
        (Proactive.tick st now rand env).1.sentToday
          = (Proactive.shouldSend st now rand).1.sentToday + 1 ∧
        (Proactive.tick st now rand env).1.lastProactiveAt
          = some env.nowDuring)) := by
  have hnt : ¬((!true : Bool) = true) := by simp
  refine ⟨?_, ?_, ?_⟩
  · unfold Proactive.tick
    dsimp only
    rw [hgo, if_neg hnt]
    cases henv : env.reqResult with
    | error e => rfl
    | ok payload =>
      dsimp only
      split <;> rfl
  · intro e he
    unfold Proactive.tick
    dsimp only
    rw [hgo, if_neg hnt, he]
    exact ⟨rfl, rfl⟩
  · intro payload hp
    constructor
    · intro htext
      unfold Proactive.tick
      dsimp only
      rw [hgo, if_neg hnt, hp]
      dsimp only
      rw [if_pos htext]
      exact ⟨rfl, rfl⟩
    · intro htext
      unfold Proactive.tick
      dsimp only
      rw [hgo, if_neg hnt, hp]
      dsimp only
      rw [if_neg htext]
      exact ⟨rfl, rfl⟩

/-- A scheduler state that passes every guardrail, for the C4 witness. -/
def sampleStC4 : Proactive.SchedSt :=
  { enabled := true
    minIdleMs := 45 * 60 * 1000
    cooldownMs := 2 * 60 * 60 * 1000
    maxPerDay := 2
    randomChance := 35 / 100
    quietStartHour := 22
    quietEndHour := 8
    lastUserActivityAt := 0
    lastProactiveAt := none
    sentToday := 0
    dayKey := "2026-10-11"
    inFlight := false }

theorem sampleStC4_go : (Proactive.shouldSend sampleStC4 sampleNowC8 0).2 = true := by
  unfold Proactive.shouldSend
  rw [if_neg (by decide :
    ¬((!sampleStC4.enabled || sampleStC4.inFlight) = true))]
  dsimp only
  rw [if_neg (by decide :
    ¬(Proactive.dayKeyOf sampleNowC8 ≠ sampleStC4.dayKey))]
  rw [if_neg (by decide :
    ¬(sampleStC4.sentToday ≥ sampleStC4.maxPerDay))]
  rw [if_neg (by decide :
    ¬(Proactive.isQuietHours sampleStC4.quietStartHour sampleStC4.quietEndHour
        sampleNowC8.hour = true))]
  rw [if_neg (by decide :
    ¬(sampleNowC8.ms - sampleStC4.lastUserActivityAt < sampleStC4.minIdleMs))]
  rw [if_neg (by decide :
    ¬((match sampleStC4.lastProactiveAt with
        | some t => decide (t ≠ 0) && decide (sampleNowC8.ms - t < sampleStC4.cooldownMs)
        | none => false) = true))]
  dsimp only
  simp only [decide_eq_true_eq]
  norm_num [sampleStC4]

/-- A successful tick environment whose response text trims to "hi". -/
def sampleEnvOk : Proactive.TickEnv :=
  { screenCaptureEnabled := false
    latestCapturePath := none
    reqResult := .ok ⟨some " hi "⟩
    nowDuring := 10000042 }

/-- A failing tick environment (the bridge request rejects). -/
def sampleEnvErr : Proactive.TickEnv :=
  { screenCaptureEnabled := false
    latestCapturePath := none
    reqResult := .error "Backend timed out"
    nowDuring := 10000042 }

/-- Witness for C4: a send-phase tick with a successful non-empty response
increments the counter and sets the timestamp; a failing one changes
neither; both clear the in-flight marker. -/
theorem C4_tick_counters_witness :
    (Proactive.tick sampleStC4 sampleNowC8 0 sampleEnvOk).1.inFlight = false ∧
    (Proactive.tick sampleStC4 sampleNowC8 0 sampleEnvOk).1.sentToday
      = (Proactive.shouldSend sampleStC4 sampleNowC8 0).1.sentToday + 1 ∧
    (Proactive.tick sampleStC4 sampleNowC8 0 sampleEnvOk).1.lastProactiveAt
      = some 10000042 ∧
    (Proactive.tick sampleStC4 sampleNowC8 0 sampleEnvErr).1.inFlight = false ∧
    (Proactive.tick sampleStC4 sampleNowC8 0 sampleEnvErr).1.sentToday
      = (Proactive.shouldSend sampleStC4 sampleNowC8 0).1.sentToday ∧
    (Proactive.tick sampleStC4 sampleNowC8 0 sampleEnvErr).1.lastProactiveAt
      = (Proactive.shouldSend sampleStC4 sampleNowC8 0).1.lastProactiveAt := by
  have hgo : (Proactive.shouldSend sampleStC4 sampleNowC8 0).2 = true :=
    sampleStC4_go
  obtain ⟨w1, -, w3⟩ := C4_tick_counters sampleStC4 sampleNowC8 0 sampleEnvOk hgo
  obtain ⟨w4, w5, -⟩ := C4_tick_counters sampleStC4 sampleNowC8 0 sampleEnvErr hgo
  obtain ⟨-, wok⟩ := w3 ⟨some " hi "⟩ rfl
  obtain ⟨wa, wb⟩ := wok (by decide)
  obtain ⟨wc, wd⟩ := w5 "Backend timed out" rfl
  exact ⟨w1, wa, wb, w4, wc, wd⟩

namespace Capture

theorem captureOnceBody_fst (env : CapEnv) (d : String)
    (hm : env.mkdirError = none) : (captureOnceBody env (some d)).1 = true := by
  unfold captureOnceBody
  rw [hm]
  cases env.sources with
  | nil => rfl
  | cons img rest =>
    cases img with
    | none => rfl
    | some isEmpty =>
      cases isEmpty with
      | true => rfl
      | false => cases env.writeError <;> rfl

theorem captureOnceBody_ok (env : CapEnv) (d out : String)
    (hb : (captureOnceBody env (some d)).2 = .ok out) :
    out = joinPath d "latest-screen.png" := by
  cases hm : env.mkdirError with
  | some e => simp [captureOnceBody, hm] at hb
  | none =>
    cases hs : env.sources with
    | nil => simp [captureOnceBody, hm, hs] at hb
    | cons img rest =>
      cases img with
      | none => simp [captureOnceBody, hm, hs] at hb
      | some isEmpty =>
        cases isEmpty with
        | true => simp [captureOnceBody, hm, hs] at hb
        | false =>
          cases hw : env.writeError with
          | some e => simp [captureOnceBody, hm, hs, hw] at hb
          | none =>
            simp [captureOnceBody, hm, hs, hw] at hb
            exact hb.symm

theorem captureOnce_fields (env : CapEnv) (st : CapSt) :
    (captureOnce env st).1.providerCalls
      = st.providerCalls
        + (if (captureOnceBody env st.captureDir).1 then 1 else 0) ∧
    (captureOnce env st).1.promOutcomes = st.promOutcomes ∧
    (captureOnce env st).1.captureInFlight = st.captureInFlight ∧
    (captureOnce env st).1.nextProm = st.nextProm ∧
    (captureOnce env st).1.enabled = st.enabled := by
  unfold captureOnce
  dsimp only
  cases hres : (captureOnceBody env st.captureDir).2 <;>
    cases hb : (captureOnceBody env st.captureDir).1 <;>
    simp [hres, hb]

theorem captureOnce_ok (env : CapEnv) (st : CapSt) (out : String)
    (hb : (captureOnceBody env st.captureDir).2 = .ok out) :
    (captureOnce env st).2.1 = some out ∧
    (captureOnce env st).1.latestCapturePath = some out ∧
    (captureOnce env st).1.lastError = none ∧
    (captureOnce env st).1.lastCaptureAt = some env.nowMs := by
  unfold captureOnce
  dsimp only
  rw [hb]
  cases hf : (captureOnceBody env st.captureDir).1 <;> simp

theorem captureOnce_error (env : CapEnv) (st : CapSt) (err : String)
    (hb : (captureOnceBody env st.captureDir).2 = .error err) :
    (captureOnce env st).2.1 = none ∧
    (captureOnce env st).1.lastError = some err ∧
    (env.windowLive = true →
      CapEvent.log (captureFailLog err) ∈ (captureOnce env st).2.2) := by
  unfold captureOnce
  dsimp only
  rw [hb]
  cases hf : (captureOnceBody env st.captureDir).1 <;>
    (refine ⟨rfl, rfl, ?_⟩ <;> intro hw <;> simp [hw])

theorem captureOnce_toOption (env : CapEnv) (st : CapSt) :
    (captureOnce env st).2.1 = (captureOnceBody env st.captureDir).2.toOption := by
  cases hb : (captureOnceBody env st.captureDir).2 with
  | ok out => rw [(captureOnce_ok env st out hb).1]; rfl
  | error e => rw [(captureOnce_error env st e hb).1]; rfl

theorem captureNow_disabled (st : CapSt) (h : st.enabled = false) :
    captureNow st = (st, .immedNull) := by
  simp [captureNow, h]

theorem captureNow_inflight (st : CapSt) (p : Nat) (h1 : st.enabled = true)
    (h2 : st.captureInFlight = some p) : captureNow st = (st, .prom p) := by
  simp [captureNow, h1, h2]

theorem captureNow_fresh (st : CapSt) (h1 : st.enabled = true)
    (h2 : st.captureInFlight = none) :
    captureNow st =
      ({ st with captureInFlight := some st.nextProm
                 nextProm := st.nextProm + 1 }, .prom st.nextProm) := by
  simp [captureNow, h1, h2]

end Capture

namespace Capture

theorem completeCapture_some (env : CapEnv) (st : CapSt) (p : Nat)
    (hp : st.captureInFlight = some p) :
    completeCapture env st =
      ({ (captureOnce env st).1 with
          captureInFlight := none
          promOutcomes := (captureOnce env st).1.promOutcomes
            ++ [(p, (captureOnce env st).2.1)] },
        (captureOnce env st).2.2) := by
  unfold completeCapture
  rw [hp]

end Capture

/-- C5 (amended): capture coalescing for an enabled service.  A `captureNow`
call made while the service is enabled and a capture is in flight returns
the very same in-flight promise and leaves the state untouched (so no
provider invocation); starting from an enabled idle service, the first call
registers one promise, any number of further calls while it is in flight
return the same promise without changing the state, and completing the one
operation performs exactly one provider invocation and records exactly one
shared outcome for that promise.  (The unamended claim fails when the
service is disabled mid-flight; see the counterexample.) -/
theorem C5_capture_coalescing_amended (stA stB : Capture.CapSt) (pA : Nat)
    (env : Capture.CapEnv) (d : String)
    (hA1 : stA.enabled = true) (hA2 : stA.captureInFlight = some pA)
    (hB1 : stB.enabled = true) (hB2 : stB.captureInFlight = none)
    (hBd : stB.captureDir = some d) (hBm : env.mkdirError = none) :
    Capture.captureNow stA = (stA, .prom pA) ∧
    (Capture.captureNow stB).2 = .prom stB.nextProm ∧
    (Capture.captureNow stB).1.providerCalls = stB.providerCalls ∧
    (∀ n, (fun s => (Capture.captureNow s).1)^[n] (Capture.captureNow stB).1
        = (Capture.captureNow stB).1) ∧
    (Capture.completeCapture env (Capture.captureNow stB).1).1.providerCalls
      = stB.providerCalls + 1 ∧
    (Capture.completeCapture env (Capture.captureNow stB).1).1.promOutcomes
      = stB.promOutcomes
        ++ [(stB.nextProm,
             (Capture.captureOnce env (Capture.captureNow stB).1).2.1)] := by
  have hBfresh := Capture.captureNow_fresh stB hB1 hB2
  have hfix : (Capture.captureNow ((Capture.captureNow stB).1)).1
      = (Capture.captureNow stB).1 := by
    rw [hBfresh]
    dsimp only
    simp [Capture.captureNow, hB1]
  have hcompl := Capture.completeCapture_some env ((Capture.captureNow stB).1)
    stB.nextProm (by rw [hBfresh])
  have hfields := Capture.captureOnce_fields env ((Capture.captureNow stB).1)
  refine ⟨Capture.captureNow_inflight stA pA hA1 hA2, ?_, ?_, ?_, ?_, ?_⟩
  · rw [hBfresh]
  · rw [hBfresh]
  · intro n
    induction n with
    | zero => rfl
    | succ n ih =>
      rw [Function.iterate_succ_apply]
      show (fun s => (Capture.captureNow s).1)^[n]
        ((Capture.captureNow ((Capture.captureNow stB).1)).1) = _
      rw [hfix]
      exact ih
  · rw [hcompl]
    show (Capture.captureOnce env ((Capture.captureNow stB).1)).1.providerCalls
      = stB.providerCalls + 1
    rw [hfields.1]
    have hdir : ((Capture.captureNow stB).1).captureDir = some d := by
      rw [hBfresh]; exact hBd
    rw [hdir, Capture.captureOnceBody_fst env d hBm]
    have hpc : ((Capture.captureNow stB).1).providerCalls
        = stB.providerCalls := by
      rw [hBfresh]
    rw [hpc]
    simp
  · rw [hcompl]
    show (Capture.captureOnce env ((Capture.captureNow stB).1)).1.promOutcomes
        ++ [(stB.nextProm, (Capture.captureOnce env ((Capture.captureNow stB).1)).2.1)]
      = _
    rw [hfields.2.1]
    have hpo : ((Capture.captureNow stB).1).promOutcomes = stB.promOutcomes := by
      rw [hBfresh]
    rw [hpo]

/-- A started, enabled capture service (directory set), used by witnesses. -/
def sampleCapStarted : Capture.CapSt :=
  { Capture.initCap with timerOn := true, captureDir := some "/ud/captures" }

/-- The same service with a capture in flight as promise 7. -/
def sampleCapInFlight : Capture.CapSt :=
  { sampleCapStarted with captureInFlight := some 7, nextProm := 8 }

/-- Host outcomes for a successful capture. -/
def sampleEnvCapOk : Capture.CapEnv :=
  { mkdirError := none
    scaleFactor := 1
    displayW := 100
    displayH := 50
    sources := [some false]
    writeError := none
    nowMs := 1000
    windowLive := true }

/-- Witness for the amended C5 at a concrete started service. -/
theorem C5_capture_coalescing_amended_witness :
    Capture.captureNow sampleCapInFlight = (sampleCapInFlight, .prom 7) ∧
    (Capture.captureNow sampleCapStarted).2 = .prom 0 ∧
    (Capture.captureNow sampleCapStarted).1.providerCalls = 0 ∧
    ((fun s => (Capture.captureNow s).1)^[3]
        (Capture.captureNow sampleCapStarted).1
      = (Capture.captureNow sampleCapStarted).1) ∧
    (Capture.completeCapture sampleEnvCapOk
      (Capture.captureNow sampleCapStarted).1).1.providerCalls = 1 ∧
    (Capture.completeCapture sampleEnvCapOk
      (Capture.captureNow sampleCapStarted).1).1.promOutcomes
      = [(0, (Capture.captureOnce sampleEnvCapOk
          (Capture.captureNow sampleCapStarted).1).2.1)] := by
  obtain ⟨w1, w2, w3, w4, w5, w6⟩ :=
    C5_capture_coalescing_amended sampleCapInFlight sampleCapStarted 7
      sampleEnvCapOk "/ud/captures" rfl rfl rfl rfl rfl rfl
  exact ⟨w1, w2, w3, w4 3, w5, w6⟩

/-- Host outcomes completing with a written snapshot, for the C5
counterexample chain. -/
def cexCapEnv : Capture.CapEnv :=
  { mkdirError := none
    scaleFactor := 1
    displayW := 100
    displayH := 50
    sources := [some false]
    writeError := none
    nowMs := 2000
    windowLive := false }

/-- Counterexample to C5 as stated: `captureNow` checks `enabled` before the
in-flight check, so a call made after `setEnabled(false)` while a capture is
still in flight returns an immediate `null` — not the in-flight outcome,
which here resolves to a path.  Chain: start a capture, disable the service,
call `captureNow` (returns `null` though promise 0 is still in flight),
complete the capture (promise 0 resolves to the snapshot path). -/
theorem C5_capture_coalescing_counterexample :
    ((Capture.setEnabledCap "/ud" false
        (Capture.captureNow sampleCapStarted).1 false).1).captureInFlight
      = some 0 ∧
    (Capture.captureNow ((Capture.setEnabledCap "/ud" false
        (Capture.captureNow sampleCapStarted).1 false).1)).2
      = Capture.CaptureRet.immedNull ∧
    (Capture.completeCapture cexCapEnv
        ((Capture.captureNow ((Capture.setEnabledCap "/ud" false
          (Capture.captureNow sampleCapStarted).1 false).1)).1)).1.promOutcomes
      = [(0, some "/ud/captures/latest-screen.png")] ∧
    Capture.CaptureRet.immedNull ≠ Capture.CaptureRet.prom 0 := by
  refine ⟨?_, ?_, ?_, ?_⟩ <;> decide

/-- C7: `captureNow` never rejects.  When the service is disabled it returns
`null` immediately with no side effect; one `_captureOnce` run resolves with
exactly the `try`-body's outcome with every thrown error absorbed to `null`
(`Except.toOption`); on a body error the message is recorded in `lastError`
and (window live) surfaced as a diagnostic log with the macOS hint; on
success the result is the fixed snapshot path under the capture directory,
`latestCapturePath`/`lastCaptureAt` are updated and `lastError` cleared. -/
theorem C7_captureNow_total (st : Capture.CapSt) (env : Capture.CapEnv)
    (d out err : String) :
    (st.enabled = false → Capture.captureNow st = (st, .immedNull)) ∧
    ((Capture.captureOnce env st).2.1
      = (Capture.captureOnceBody env st.captureDir).2.toOption) ∧
    ((Capture.captureOnceBody env st.captureDir).2 = .error err →
      (Capture.captureOnce env st).2.1 = none ∧
      (Capture.captureOnce env st).1.lastError = some err ∧
      (env.windowLive = true →
        Capture.CapEvent.log (Capture.captureFailLog err)
          ∈ (Capture.captureOnce env st).2.2)) ∧
    (st.captureDir = some d →
      (Capture.captureOnceBody env st.captureDir).2 = .ok out →
      out = Capture.joinPath d "latest-screen.png" ∧
      (Capture.captureOnce env st).2.1 = some out ∧
      (Capture.captureOnce env st).1.latestCapturePath = some out ∧
      (Capture.captureOnce env st).1.lastError = none ∧
      (Capture.captureOnce env st).1.lastCaptureAt = some env.nowMs) := by
  refine ⟨fun h => Capture.captureNow_disabled st h,
    Capture.captureOnce_toOption env st, ?_, ?_⟩
  · intro hb
    obtain ⟨h1, h2, h3⟩ := Capture.captureOnce_error env st err hb
    exact ⟨h1, h2, h3⟩
  · intro hd hb
    obtain ⟨h1, h2, h3, h4⟩ := Capture.captureOnce_ok env st out hb
    have hout : out = Capture.joinPath d "latest-screen.png" := by
      rw [hd] at hb
      exact Capture.captureOnceBody_ok env d out hb
    exact ⟨hout, h1, h2, h3, h4⟩

/-- A disabled capture service. -/
def sampleCapDisabled : Capture.CapSt := { Capture.initCap with enabled := false }

/-- Host outcomes with no available display source. -/
def sampleEnvCapFail : Capture.CapEnv :=
  { mkdirError := none
    scaleFactor := 1
    displayW := 100
    displayH := 50
    sources := []
    writeError := none
    nowMs := 1000
    windowLive := true }

/-- Witness for C7: a disabled call, a successful capture, and a failing
capture with its recorded error and diagnostic. -/
theorem C7_captureNow_total_witness :
    Capture.captureNow sampleCapDisabled = (sampleCapDisabled, .immedNull) ∧
    (Capture.captureOnce sampleEnvCapOk sampleCapStarted).2.1
      = some "/ud/captures/latest-screen.png" ∧
    (Capture.captureOnce sampleEnvCapFail sampleCapStarted).2.1 = none ∧
    (Capture.captureOnce sampleEnvCapFail sampleCapStarted).1.lastError
      = some "No screen source available" ∧
    Capture.CapEvent.log (Capture.captureFailLog "No screen source available")
      ∈ (Capture.captureOnce sampleEnvCapFail sampleCapStarted).2.2 := by
  obtain ⟨a1, -, -, -⟩ :=
    C7_captureNow_total sampleCapDisabled sampleEnvCapOk "/ud/captures" "x" "y"
  obtain ⟨-, -, -, b4⟩ :=
    C7_captureNow_total sampleCapStarted sampleEnvCapOk "/ud/captures"
      "/ud/captures/latest-screen.png" "err"
  obtain ⟨-, -, c3, -⟩ :=
    C7_captureNow_total sampleCapStarted sampleEnvCapFail "/ud/captures"
      "out" "No screen source available"
  obtain ⟨h1, h2, h3, h4, h5⟩ := b4 rfl rfl
  obtain ⟨g1, g2, g3⟩ := c3 rfl
  exact ⟨a1 rfl, h2, g1, g2, g3 rfl⟩

namespace Bridge

theorem onStdout_single (parse : List Char → Option Msg) (st : BSt)
    (chunk raw rest : List Char)
    (hsplit : splitBuf (st.buf ++ chunk) = ([raw], rest)) :
    onStdout parse st chunk = handleLine parse { st with buf := rest } raw := by
  unfold onStdout
  dsimp only
  rw [hsplit]
  rfl

end Bridge

/-- C10: a well-formed response line whose id is absent from the pending map
is silently dropped: processing it consumes the line from the read buffer
and changes nothing else — the pending map, timers, promises, child handle,
sequence counter and emitted events are all untouched. -/
theorem C10_late_response_dropped (parse : List Char → Option Bridge.Msg)
    (st : Bridge.BSt) (chunk raw rest : List Char) (msg : Bridge.Msg)
    (i : String)
    (hsplit : Bridge.splitBuf (st.buf ++ chunk) = ([raw], rest))
    (hparse : parse (jsTrim raw) = some msg)
    (hready : msg.type? ≠ some "ready")
    (hid : msg.id? = some i)
    (hnp : i ∉ st.pending) :
    Bridge.onStdout parse st chunk = { st with buf := rest } := by
  rw [Bridge.onStdout_single parse st chunk raw rest hsplit]
  cases he : (jsTrim raw).isEmpty with
  | true => exact Bridge.handleLine_skip parse _ raw he
  | false =>
    rw [Bridge.handleLine_parse parse _ raw he, hparse]
    refine Bridge.handleParsed_drop _ msg hready ?_
    intro j hj
    rw [hid] at hj
    injection hj with hj2
    rintro ⟨-, hmem⟩
    exact hnp (hj2 ▸ hmem)

/-- The parse function for the C10 witness: one known late-response line. -/
def parseC10 : List Char → Option Bridge.Msg := fun l =>
  if l = ['z'] then some ⟨none, some "9", true, none, none⟩ else none

/-- Witness for C10: a response with unknown id "9" arriving at a fresh
bridge only consumes the line from the buffer. -/
theorem C10_late_response_dropped_witness :
    Bridge.onStdout parseC10 Bridge.init ['z', '\n']
      = { Bridge.init with buf := [] } :=
  C10_late_response_dropped parseC10 Bridge.init ['z', '\n'] ['z'] []
    ⟨none, some "9", true, none, none⟩ "9" (by decide) (by decide)
    (by decide) rfl (by decide)

/-- C2: responses are correlated by id, not send order.  With two requests
`a` and `b` pending, feeding the response line bearing `b`'s id first
resolves `b`'s promise with `b`'s payload while `a` is still unsettled;
feeding `a`'s response afterwards resolves `a` with its own payload and
leaves `b`'s settled value untouched. -/
theorem C2_out_of_order_correlation (parse : List Char → Option Bridge.Msg)
    (st : Bridge.BSt) (a b pa pb : String) (msgA msgB : Bridge.Msg)
    (chunkA chunkB rawA rawB : List Char)
    (hsplitB : Bridge.splitBuf (st.buf ++ chunkB) = ([rawB], []))
    (hsplitA : Bridge.splitBuf chunkA = ([rawA], []))
    (hneB : (jsTrim rawB).isEmpty = false)
    (hneA : (jsTrim rawA).isEmpty = false)
    (hpB : parse (jsTrim rawB) = some msgB)
    (hpA : parse (jsTrim rawA) = some msgA)
    (htyB : msgB.type? ≠ some "ready") (htyA : msgA.type? ≠ some "ready")
    (hidB : msgB.id? = some b) (hidA : msgA.id? = some a)
    (hokB : msgB.ok = true) (hokA : msgA.ok = true)
    (hplB : msgB.payload? = some pb) (hplA : msgA.payload? = some pa)
    (hab : a ≠ b) (ha0 : a ≠ "") (hb0 : b ≠ "")
    (hpena : a ∈ st.pending) (hpenb : b ∈ st.pending)
    (hla : st.promises.lookup a = some .unsettled)
    (hlb : st.promises.lookup b = some .unsettled) :
    ((Bridge.onStdout parse st chunkB).promises.lookup b
      = some (.resolved pb)) ∧
    ((Bridge.onStdout parse st chunkB).promises.lookup a
      = some .unsettled) ∧
    ((Bridge.onStdout parse (Bridge.onStdout parse st chunkB)
        chunkA).promises.lookup a = some (.resolved pa)) ∧
    ((Bridge.onStdout parse (Bridge.onStdout parse st chunkB)
        chunkA).promises.lookup b = some (.resolved pb)) := by
  have hrB : Bridge.respVal msgB = .resolved pb := by
    simp [Bridge.respVal, hokB, hplB]
  have hrA : Bridge.respVal msgA = .resolved pa := by
    simp [Bridge.respVal, hokA, hplA]
  have h1 : Bridge.onStdout parse st chunkB =
      { st with
          buf := []
          pending := st.pending.erase b
          timers := st.timers.erase b
          promises := Bridge.settleProm st.promises b (Bridge.respVal msgB) } := by
    rw [Bridge.onStdout_single parse st chunkB rawB [] hsplitB,
      Bridge.handleLine_parse parse _ rawB hneB, hpB,
      Bridge.handleParsed_settle { st with buf := ([] : List Char) } msgB b
        htyB hidB ⟨hb0, hpenb⟩]
  have hc1 : (Bridge.onStdout parse st chunkB).promises.lookup b
      = some (.resolved pb) := by
    rw [h1]
    show (Bridge.settleProm st.promises b (Bridge.respVal msgB)).lookup b = _
    rw [hrB]
    exact Bridge.lookup_settleProm_self b _ st.promises hlb
  have hc2 : (Bridge.onStdout parse st chunkB).promises.lookup a
      = some .unsettled := by
    rw [h1]
    show (Bridge.settleProm st.promises b (Bridge.respVal msgB)).lookup a = _
    rw [Bridge.lookup_settleProm_ne a b _ hab st.promises]
    exact hla
  have h2 : Bridge.onStdout parse (Bridge.onStdout parse st chunkB) chunkA =
      { (Bridge.onStdout parse st chunkB) with
          buf := []
          pending := (Bridge.onStdout parse st chunkB).pending.erase a
          timers := (Bridge.onStdout parse st chunkB).timers.erase a
          promises := Bridge.settleProm
            (Bridge.onStdout parse st chunkB).promises a
            (Bridge.respVal msgA) } := by
    have hbuf : Bridge.splitBuf ((Bridge.onStdout parse st chunkB).buf ++ chunkA)
        = ([rawA], []) := by
      rw [h1]
      exact hsplitA
    rw [Bridge.onStdout_single parse _ chunkA rawA [] hbuf,
      Bridge.handleLine_parse parse _ rawA hneA, hpA]
    
    have hmemA : a ∈ ({ (Bridge.onStdout parse st chunkB) with buf := ([] : List Char) }).pending := by
      show a ∈ (Bridge.onStdout parse st chunkB).pending
      rw [h1]
      show a ∈ st.pending.erase b
      exact (List.mem_erase_of_ne hab).mpr hpena
    rw [Bridge.handleParsed_settle
      { (Bridge.onStdout parse st chunkB) with buf := ([] : List Char) }
      msgA a htyA hidA ⟨ha0, hmemA⟩]
  refine ⟨hc1, hc2, ?_, ?_⟩
  · rw [h2]
    show (Bridge.settleProm (Bridge.onStdout parse st chunkB).promises a
      (Bridge.respVal msgA)).lookup a = _
    rw [hrA]
    exact Bridge.lookup_settleProm_self a _ _ hc2
  · rw [h2]
    show (Bridge.settleProm (Bridge.onStdout parse st chunkB).promises a
      (Bridge.respVal msgA)).lookup b = _
    exact Bridge.lookup_settleProm_settled b a _ _ (by simp) _ hc1

/-- The parse function for the C2 witness: two response lines. -/
def parseC2 : List Char → Option Bridge.Msg := fun l =>
  if l = ['B'] then some ⟨none, some "2", true, some "pb", none⟩
  else if l = ['A'] then some ⟨none, some "1", true, some "pa", none⟩
  else none

/-- A bridge with requests "1" and "2" pending, for the C2 witness. -/
def stC2 : Bridge.BSt :=
  { Bridge.init with
      child := some ⟨1, true⟩
      pending := ["1", "2"]
      timers := ["1", "2"]
      promises := [("1", .unsettled), ("2", .unsettled)]
      reqSeq := 2 }

/-- Witness for C2 at a concrete two-request bridge: answering "2" then "1"
resolves "2" first, each with its own payload. -/
theorem C2_out_of_order_correlation_witness :
    ((Bridge.onStdout parseC2 stC2 ['B', '\n']).promises.lookup "2"
      = some (.resolved "pb")) ∧
    ((Bridge.onStdout parseC2 stC2 ['B', '\n']).promises.lookup "1"
      = some .unsettled) ∧
    ((Bridge.onStdout parseC2 (Bridge.onStdout parseC2 stC2 ['B', '\n'])
        ['A', '\n']).promises.lookup "1" = some (.resolved "pa")) ∧
    ((Bridge.onStdout parseC2 (Bridge.onStdout parseC2 stC2 ['B', '\n'])
        ['A', '\n']).promises.lookup "2" = some (.resolved "pb")) :=
  C2_out_of_order_correlation parseC2 stC2 "1" "2" "pa" "pb"
    ⟨none, some "1", true, some "pa", none⟩
    ⟨none, some "2", true, some "pb", none⟩
    ['A', '\n'] ['B', '\n'] ['A'] ['B']
    (by decide) (by decide) (by decide) (by decide)
    (by decide) (by decide) (by decide) (by decide)
    (by decide) (by decide) (by decide) (by decide)
    (by decide) (by decide) (by decide) (by decide)
    (by decide) (by decide) (by decide) (by decide) (by decide)

/-- C9: single-subprocess invariant.  A `request` made with no live child
spawns exactly one subprocess; `start` with a live child is a no-op;
a `request` with a live child spawns nothing; and any sequence of further
`start`/`request` calls made while the handle is live leaves the handle and
the spawn count unchanged. -/
theorem C9_single_subprocess (parse : List Char → Option Bridge.Msg)
    (st0 st1 : Bridge.BSt) (c : Bridge.ChildInfo) (t p : String)
    (calls : List Bridge.Ev)
    (h0 : st0.child = none) (h1 : st1.child = some c)
    (hcalls : calls.all Bridge.isCallEv = true) :
    (Bridge.requestFn st0 t p).1.spawnCount = st0.spawnCount + 1 ∧
    (Bridge.requestFn st0 t p).1.child = some ⟨st0.spawnCount + 1, true⟩ ∧
    Bridge.startFn st1 = st1 ∧
    (Bridge.requestFn st1 t p).1.child = some c ∧
    (Bridge.requestFn st1 t p).1.spawnCount = st1.spawnCount ∧
    (Bridge.run parse st1 calls).child = some c ∧
    (Bridge.run parse st1 calls).spawnCount = st1.spawnCount := by
  have hsp := Bridge.startFn_spawn st0 h0
  have hreg := Bridge.requestFn_char_reg st0 t p ⟨st0.spawnCount + 1, true⟩
    (by rw [hsp]) rfl
  obtain ⟨h4, h5⟩ := Bridge.requestFn_child_some st1 t p c h1
  obtain ⟨h6, h7⟩ := Bridge.run_calls_frozen parse calls st1 c hcalls h1
  refine ⟨?_, ?_, Bridge.startFn_id_of_child st1 c h1, h4, h5, h6, h7⟩
  · rw [hreg]
    show (Bridge.regState (Bridge.startFn st0) t p).spawnCount = _
    simp only [Bridge.regState]
    rw [hsp]
  · rw [hreg]
    show (Bridge.regState (Bridge.startFn st0) t p).child = _
    simp only [Bridge.regState]
    rw [hsp]

/-- A bridge that has spawned its first child, for the C9 witness. -/
def stC9 : Bridge.BSt := Bridge.run Bridge.parseNone Bridge.init [.evStart]

/-- Witness for C9: from a fresh bridge one request spawns child 1; with the
child live, one more start and two more requests spawn nothing. -/
theorem C9_single_subprocess_witness :
    (Bridge.requestFn Bridge.init "m" "x").1.spawnCount = 1 ∧
    (Bridge.requestFn Bridge.init "m" "x").1.child = some ⟨1, true⟩ ∧
    Bridge.startFn stC9 = stC9 ∧
    (Bridge.requestFn stC9 "m" "x").1.child = some ⟨1, true⟩ ∧
    (Bridge.requestFn stC9 "m" "x").1.spawnCount = stC9.spawnCount ∧
    (Bridge.run Bridge.parseNone stC9
      [.evStart, .evRequest "m" "x", .evRequest "n" "y"]).child
      = some ⟨1, true⟩ ∧
    (Bridge.run Bridge.parseNone stC9
      [.evStart, .evRequest "m" "x", .evRequest "n" "y"]).spawnCount
      = stC9.spawnCount := by
  have h := C9_single_subprocess Bridge.parseNone Bridge.init stC9 ⟨1, true⟩
    "m" "x" [.evStart, .evRequest "m" "x", .evRequest "n" "y"]
    (by decide) (by decide) (by decide)
  exact h

/-- The stop-then-restart trace: start, stop, the killed child's exit event,
the 1.5-second restart timer firing.  It contains no explicit `start` or
`request` call after the `stop`. -/
def cexStopTrace : List Bridge.Ev := [.evStart, .evStop, .evExit 1 0, .evRestartFire]

/-- Counterexample to C3 as stated: after `stop()` (index 1), with no
explicit `start()` or `request()` call afterwards, the bridge nevertheless
spawns a second subprocess — the exit event of the child killed by `stop()`
fires the exit handler, which schedules the auto-restart. -/
theorem C3_stop_counterexample :
    Bridge.noExplicitCalls (cexStopTrace.drop 2) = true ∧
    (Bridge.run Bridge.parseNone Bridge.init (cexStopTrace.take 2)).child
      = none ∧
    (Bridge.run Bridge.parseNone Bridge.init (cexStopTrace.take 2)).spawnCount
      = 1 ∧
    (Bridge.run Bridge.parseNone Bridge.init cexStopTrace).spawnCount = 2 ∧
    (Bridge.run Bridge.parseNone Bridge.init cexStopTrace).child
      = some ⟨2, true⟩ := by
  refine ⟨by decide, by decide, by decide, by decide, by decide⟩

namespace Bridge

theorem step_exit_eq (parse : List Char → Option Msg) (s : BSt) (g : Nat)
    (code : Int) :
    step parse s (.evExit g code)
      = if g ∈ s.liveExit then
          exitHandler { s with liveExit := s.liveExit.erase g } code
        else s := rfl

theorem step_restartFire_eq (parse : List Char → Option Msg) (s : BSt) :
    step parse s .evRestartFire
      = if s.restartTimers > 0 then
          startFn { s with restartTimers := s.restartTimers - 1 }
        else s := rfl

theorem startFn_eq (st : BSt) : startFn st =
    match st.child with
    | some _ => st
    | none =>
      { st with
          child := some ⟨st.spawnCount + 1, true⟩
          spawnCount := st.spawnCount + 1
          liveExit := st.liveExit ++ [st.spawnCount + 1]
          liveErr := st.liveErr ++ [st.spawnCount + 1]
          events := st.events ++ [.startingLog] } := rfl

end Bridge

/-- C3 (amended): `stop()` itself is not a spawn and schedules no restart —
it only kills the child and clears the handle, leaving `spawnCount` and the
armed-restart count unchanged.  However, the killed subprocess's `exit`
event still fires the exit handler, which arms the 1.5-second auto-restart
exactly as for an unexpected exit; when that timer fires the bridge spawns a
new subprocess with no further `start()`/`request()` call.  So after
`stop()` the bridge does automatically spawn again: the auto-restart is
triggered by every subprocess exit, including the one `stop()` causes. -/
theorem C3_stop_amended (parse : List Char → Option Bridge.Msg)
    (st : Bridge.BSt) (c : Bridge.ChildInfo) (code : Int)
    (h1 : st.child = some c) (h2 : c.gen ∈ st.liveExit) :
    Bridge.stopFn st = { st with child := none } ∧
    (Bridge.stopFn st).spawnCount = st.spawnCount ∧
    (Bridge.stopFn st).restartTimers = st.restartTimers ∧
    (Bridge.step parse (Bridge.stopFn st) (.evExit c.gen code)).restartTimers
      = st.restartTimers + 1 ∧
    (Bridge.step parse
        (Bridge.step parse (Bridge.stopFn st) (.evExit c.gen code))
        .evRestartFire).spawnCount = st.spawnCount + 1 ∧
    (Bridge.step parse
        (Bridge.step parse (Bridge.stopFn st) (.evExit c.gen code))
        .evRestartFire).child = some ⟨st.spawnCount + 1, true⟩ := by
  have hstop := Bridge.stopFn_kill st c h1
  rw [hstop]
  refine ⟨rfl, rfl, rfl, ?_, ?_, ?_⟩
  · rw [Bridge.step_exit_eq]
    dsimp only
    rw [if_pos h2, Bridge.exitHandler_eq]
  · rw [Bridge.step_exit_eq]
    dsimp only
    rw [if_pos h2, Bridge.exitHandler_eq, Bridge.step_restartFire_eq]
    dsimp only
    rw [if_pos (Nat.succ_pos _), Bridge.startFn_eq]
  · rw [Bridge.step_exit_eq]
    dsimp only
    rw [if_pos h2, Bridge.exitHandler_eq, Bridge.step_restartFire_eq]
    dsimp only
    rw [if_pos (Nat.succ_pos _), Bridge.startFn_eq]

/-- Witness for the amended C3 at a just-started bridge. -/
theorem C3_stop_amended_witness :
    Bridge.stopFn stC9 = { stC9 with child := none } ∧
    (Bridge.stopFn stC9).spawnCount = stC9.spawnCount ∧
    (Bridge.stopFn stC9).restartTimers = stC9.restartTimers ∧
    (Bridge.step Bridge.parseNone (Bridge.stopFn stC9)
        (.evExit 1 0)).restartTimers = stC9.restartTimers + 1 ∧
    (Bridge.step Bridge.parseNone
        (Bridge.step Bridge.parseNone (Bridge.stopFn stC9) (.evExit 1 0))
        .evRestartFire).spawnCount = stC9.spawnCount + 1 ∧
    (Bridge.step Bridge.parseNone
        (Bridge.step Bridge.parseNone (Bridge.stopFn stC9) (.evExit 1 0))
        .evRestartFire).child = some ⟨stC9.spawnCount + 1, true⟩ :=
  C3_stop_amended Bridge.parseNone stC9 ⟨1, true⟩ 0 (by decide) (by decide)

/-- The spawn-error trace: a request (which lazily spawns child 1 and
registers pending request "1") followed by the child's `error` event. -/
def cexErrTrace : List Bridge.Ev := [.evRequest "message" "x", .evError 1 "spawn ENOENT"]

/-- Counterexample to C1 as stated: pending request "1" is settled at step 1
of the trace, but the settling event is the subprocess spawn-`error` event —
not a matching stdout response, not the request's timeout, and not a
subprocess exit.  So "exactly one of the three events settles the request"
fails: a fourth event settles it (and afterwards none of the three ever
can, since the promise is already settled and the pending map is empty). -/
theorem C1_settlement_counterexample :
    Bridge.settlesAt Bridge.parseNone cexErrTrace 1 "1" ∧
    cexErrTrace[1]? = some (.evError 1 "spawn ENOENT") ∧
    Bridge.isThreeEv (.evError 1 "spawn ENOENT") = false ∧
    (Bridge.stateAt Bridge.parseNone cexErrTrace 2).promises.lookup "1"
      = some (.rejected (.startFailed "spawn ENOENT")) ∧
    (Bridge.stateAt Bridge.parseNone cexErrTrace 2).pending = [] := by
  refine ⟨⟨by decide, by decide⟩, by decide, by decide, by decide, by decide⟩

/-- C1 (amended): exactly-one settlement, with the spawn-`error` event added
to the settler set.  Along any event trace from the initial bridge state:
(1) a settled promise never changes again — at most one settlement;
(2) the step that settles a pending request is one of the four events
    {a stdout chunk one of whose lines parses to a message bearing the
    request's id, the request's own timeout, a subprocess exit, a subprocess
    spawn-error};
(3) the settling step also removes the request's entry from the pending map
    and cancels its timer;
(4) while the entry is pending the promise is unsettled and its 120-second
    timer is armed, and that timeout event, when delivered, settles it — so
    a pending request is never left unsettled forever. -/
theorem C1_exactly_one_settlement_amended
    (parse : List Char → Option Bridge.Msg) (tr : List Bridge.Ev)
    (i : String) (k k2 : Nat) (v : Bridge.PromiseStatus) :
    (k ≤ k2 → v ≠ .unsettled →
      (Bridge.stateAt parse tr k).promises.lookup i = some v →
      (Bridge.stateAt parse tr k2).promises.lookup i = some v) ∧
    (Bridge.settlesAt parse tr k i →
      ∃ e, tr[k]? = some e ∧
        Bridge.settlerShape parse (Bridge.stateAt parse tr k) e i) ∧
    (Bridge.settlesAt parse tr k i →
      i ∉ (Bridge.stateAt parse tr (k + 1)).pending ∧
      i ∉ (Bridge.stateAt parse tr (k + 1)).timers) ∧
    (i ∈ (Bridge.stateAt parse tr k).pending →
      Bridge.isSettled (Bridge.stateAt parse tr k) i = false ∧
      i ∈ (Bridge.stateAt parse tr k).timers ∧
      Bridge.isSettled
        (Bridge.step parse (Bridge.stateAt parse tr k) (.evTimeout i)) i
        = true) := by
  refine ⟨?_, ?_, ?_, ?_⟩
  · intro hk hv hl
    rw [Bridge.stateAt_le parse tr k k2 hk]
    exact Bridge.settled_run parse i v hv _ _
      (Bridge.inv_stateAt parse tr k) hl
  · rintro ⟨hf, ht⟩
    cases hkl : tr[k]? with
    | none =>
      exfalso
      rw [Bridge.stateAt_succ parse tr k, hkl] at ht
      have ht2 : Bridge.isSettled (Bridge.stateAt parse tr k) i = true := ht
      rw [hf] at ht2
      simp at ht2
    | some e =>
      refine ⟨e, rfl, ?_⟩
      have hstep : Bridge.stateAt parse tr (k + 1)
          = Bridge.step parse (Bridge.stateAt parse tr k) e := by
        rw [Bridge.stateAt_succ parse tr k, hkl]
        rfl
      rw [hstep] at ht
      exact Bridge.flip_step parse _ e i hf ht
  · rintro ⟨-, ht⟩
    have hInv := Bridge.inv_stateAt parse tr (k + 1)
    rw [Bridge.isSettled_eq_true_iff] at ht
    obtain ⟨w, hw1, hw2⟩ := ht
    have hpend : i ∉ (Bridge.stateAt parse tr (k + 1)).pending := by
      intro hmem
      rw [hInv.pend_prom i hmem] at hw1
      injection hw1 with hw3
      exact hw2 hw3.symm
    exact ⟨hpend, fun hmem => hpend (hInv.tim_pend i hmem)⟩
  · intro hmem
    have hInv := Bridge.inv_stateAt parse tr k
    have hl := hInv.pend_prom i hmem
    have harm := hInv.pend_tim i hmem
    refine ⟨?_, harm, ?_⟩
    · unfold Bridge.isSettled
      rw [hl]
    · show Bridge.isSettled (Bridge.timeoutFire (Bridge.stateAt parse tr k) i) i
        = true
      unfold Bridge.timeoutFire
      rw [if_pos harm, Bridge.isSettled_eq_true_iff]
      exact ⟨.rejected .timedOut,
        Bridge.lookup_settleProm_self i _ _ hl, by simp⟩

/-- The request-then-timeout trace used by the C1 witness. -/
def trTimeout : List Bridge.Ev := [.evRequest "message" "x", .evTimeout "1"]

/-- Witness for the amended C1, on a concrete request settled by its own
timeout: the settled value persists, the settler is the timeout event for
"1", the entry and timer are gone afterwards, and while pending the promise
was unsettled with the timer armed. -/
theorem C1_exactly_one_settlement_amended_witness :
    ((Bridge.stateAt Bridge.parseNone trTimeout 2).promises.lookup "1"
      = some (.rejected .timedOut)) ∧
    (∃ e, trTimeout[1]? = some e ∧
      Bridge.settlerShape Bridge.parseNone
        (Bridge.stateAt Bridge.parseNone trTimeout 1) e "1") ∧
    ("1" ∉ (Bridge.stateAt Bridge.parseNone trTimeout 2).pending ∧
      "1" ∉ (Bridge.stateAt Bridge.parseNone trTimeout 2).timers) ∧
    (Bridge.isSettled (Bridge.stateAt Bridge.parseNone trTimeout 1) "1"
        = false ∧
      "1" ∈ (Bridge.stateAt Bridge.parseNone trTimeout 1).timers ∧
      Bridge.isSettled
        (Bridge.step Bridge.parseNone
          (Bridge.stateAt Bridge.parseNone trTimeout 1) (.evTimeout "1")) "1"
        = true) := by
  obtain ⟨c1, -, -, -⟩ :=
    C1_exactly_one_settlement_amended Bridge.parseNone trTimeout "1" 2 2
      (.rejected .timedOut)
  obtain ⟨-, c2, c3, c4⟩ :=
    C1_exactly_one_settlement_amended Bridge.parseNone trTimeout "1" 1 1
      (.rejected .timedOut)
  exact ⟨c1 (le_refl 2) (by decide) (by decide),
    c2 ⟨by decide, by decide⟩, c3 ⟨by decide, by decide⟩, c4 (by decide)⟩
